import Mathlib

/-!
Verification of the two VRP instance generators of this repository
(`generator.py`, the fleet-sizing variant, and `projet.py`, the stock-based
variant) against their natural-language specification.

Modelling conventions (shallow embedding):

* Python's global seeded PRNG is modelled as an explicit stream
  `g : ℕ → ℚ` of unit-interval draws together with a counter that is
  threaded through the computation; each call to `random.random()`,
  `random.uniform`, `random.randint` or `random.choice` consumes exactly one
  draw, in the order the source performs the calls.
* Python's unbounded `int` is `ℤ`; `int(x)` (truncation toward zero) is
  `int_`; `math.ceil` on rationals is `⌈·⌉`.
* Python `float` literals and arithmetic: wherever a claim's truth value
  depends on IEEE-754 double rounding (the difficulty margins `1.2`/`1.1`
  and the demand/capacity quotient), the double-precision computation is
  modelled bit-exactly by `fl` (round to nearest, ties to even), and the
  literals `1.2` and `1.1` by the exact rational values of their nearest
  doubles.  Elsewhere (coordinates, stock variation, capacity variation,
  thresholds `0.2`, `0.3`) float arithmetic is modelled as exact rational
  arithmetic; the claims about those parts do not hinge on rounding.
  `fl` is exact on `|q| < 1`; all values it is applied to in the theorems
  below are `0` or of absolute value `≥ 1`, and far below the overflow and
  subnormal ranges, which are not modelled.
* `round(x, 2)` is modelled as `round (x * 100) / 100` (round half away
  from zero on ties, where Python uses round-half-even on the underlying
  double; no statement below depends on tie behaviour).
* Real-valued computations (`math.sqrt` in the distance matrix) live in `ℝ`
  and are kept outside the decidable `Instance` record: the matrix is
  recomputed from the same coordinates by `Projet.compute_distance_matrix`.
* Failure: `random.randint` with an empty range raises `ValueError`,
  `random.choice` on an empty list raises `IndexError`, the feasibility
  check of `projet.py` raises `AssertionError`, and `min()` over an empty
  depot list while computing the average-distance statistic raises
  `ValueError`; these are the `Except` error outcomes.  `generate_instance`
  of `projet.py` performs no input validation at all.
* `generator.py` as committed contains a syntactically invalid truck-record
  literal (lines 90–95) inside a loop whose result is never used by the
  returned instance; the definitions below embed the well-defined
  fleet-sizing arithmetic of lines 50–55 and 74–116 that the claims cite.
-/

/-- A draw stream is valid when every draw lies in `[0, 1)`, as
`random.random()` guarantees. -/
def ValidStream (g : ℕ → ℚ) : Prop := ∀ n, 0 ≤ g n ∧ g n < 1

/-- Python's `int(x)`: truncation toward zero. -/
def int_ (q : ℚ) : ℤ := if 0 ≤ q then ⌊q⌋ else -⌊-q⌋

/-- Python's `round(x, 2)` on the sampled coordinates, modelled over `ℚ`. -/
def round2 (q : ℚ) : ℚ := (round (q * 100) : ℤ) / 100

/-- `random.uniform a b` given the unit draw `r`: `a + (b - a) * r`. -/
def uniformDraw (a b r : ℚ) : ℚ := a + (b - a) * r

/-- The value produced by `random.randint a b` (for `a ≤ b`) given the unit
draw `r`: the integer `a + ⌊r * (b - a + 1)⌋`, uniform over `[a, b]` as `r`
ranges over `[0, 1)`. -/
def randintVal (a b : ℤ) (r : ℚ) : ℤ := a + ⌊r * ((b : ℚ) - a + 1)⌋

/-- The index picked by `random.choice` on a list of length `len` given the
unit draw `r`. -/
def choiceIdx (len : ℕ) (r : ℚ) : ℕ := (⌊r * len⌋).toNat

/-- Runtime errors the Python generators can raise. -/
inductive PyErr where
  | valueError
  | indexError
  | assertionError
  deriving DecidableEq, Repr

/-! ### Bit-exact model of IEEE-754 double rounding

Only round-to-nearest with ties-to-even on the normal range is needed. -/

/-- Round half to even on `ℚ`, yielding `ℤ`. -/
def rne (x : ℚ) : ℤ :=
  if x - ⌊x⌋ < 1/2 then ⌊x⌋
  else if 1/2 < x - ⌊x⌋ then ⌊x⌋ + 1
  else if ⌊x⌋ % 2 = 0 then ⌊x⌋ else ⌊x⌋ + 1

/-- Base-2 logarithm on `ℕ`: `log2' n` is `⌊log₂ n⌋` for `n ≥ 1`
(a self-contained recursion that `simp` can unfold on literals). -/
def log2' (n : ℕ) : ℕ :=
  if n ≤ 1 then 0 else log2' (n / 2) + 1
termination_by n
decreasing_by exact Nat.div_lt_self (by omega) (by omega)

/-- Round a non-negative rational to the value of the nearest IEEE-754
double (ties to even).  Exact on `q < 1`; see the header comment. -/
def flPos (q : ℚ) : ℚ :=
  if q < 1 then q
  else
    let e : ℕ := log2' ⌊q⌋.toNat
    if e ≤ 52 then (rne (q * 2 ^ (52 - e)) : ℚ) / 2 ^ (52 - e)
    else (rne (q / 2 ^ (e - 52)) : ℚ) * 2 ^ (e - 52)

/-- Round a rational to the value of the nearest IEEE-754 double. -/
def fl (q : ℚ) : ℚ := if q < 0 then -flPos (-q) else flPos q

/-- The exact value of the double literal `1.2`
(`5404319552844595 * 2 ^ (-52)`, slightly below `6/5`). -/
def fp12 : ℚ := 5404319552844595 / 2 ^ 52

/-- The exact value of the double literal `1.1`
(`4953959590107546 * 2 ^ (-52)`, slightly above `11/10`). -/
def fp11 : ℚ := 4953959590107546 / 2 ^ 52

namespace Generator

/-- `generator.py`, `_calculate_required_trucks` (lines 50–55):
`0` if the total demand is `0`, else `math.ceil(total_demand /
truck_capacity)` where `/` is Python float division, modelled bit-exactly:
both operands are converted to doubles and the quotient is a correctly
rounded double. -/
def calculate_required_trucks (total_demand truck_capacity : ℤ) : ℤ :=
  if total_demand = 0 then 0
  else ⌈fl (fl (total_demand : ℚ) / fl (truck_capacity : ℚ))⌉

/-- The spec's idealisation of the same quantity: exact-arithmetic
`⌈D / C⌉`, zero on zero demand.  Used to compare the code against the
spec's words. -/
def required_trucks_spec (total_demand truck_capacity : ℤ) : ℤ :=
  if total_demand = 0 then 0 else ⌈(total_demand : ℚ) / (truck_capacity : ℚ)⌉

/-- `generator.py`, lines 102–110: the difficulty margin, with the float
literals `1.2` and `1.1` at their exact double values; any string other
than `"easy"` and `"medium"` falls into the `else` (hard) branch. -/
def truck_margin (difficulty : String) : ℚ :=
  if difficulty = "easy" then fp12
  else if difficulty = "medium" then fp11
  else 1

/-- The margin table as written in the spec (exact decimals). -/
def margin_spec (difficulty : String) : ℚ :=
  if difficulty = "easy" then 12/10
  else if difficulty = "medium" then 11/10
  else 1

/-- `generator.py`, lines 112–116: `n_trucks = ceil(min_total * margin)`
(in double arithmetic, the int being converted to a double first), then
`max` with `2`, then `max` with the minimum itself. -/
def n_trucks_of (minTotal : ℤ) (difficulty : String) : ℤ :=
  max (max ⌈fl (fl (minTotal : ℚ) * truck_margin difficulty)⌉ 2) minTotal

/-- `generator.py`, lines 74–75: total demand per product over the sampled
per-station `(essence, gasoil)` demand pairs. -/
def total_essence (demands : List (ℤ × ℤ)) : ℤ := (demands.map Prod.fst).sum

/-- Total gasoil demand. -/
def total_gasoil (demands : List (ℤ × ℤ)) : ℤ := (demands.map Prod.snd).sum

/-- `generator.py`, lines 78–83: the minimum fleet size is the sum of the
per-product minima. -/
def min_total_required (demands : List (ℤ × ℤ)) (truck_capacity : ℤ) : ℤ :=
  calculate_required_trucks (total_essence demands) truck_capacity +
    calculate_required_trucks (total_gasoil demands) truck_capacity

/-- The number of available trucks produced for a demand sample
(the `n_trucks` parameter / `total_trucks_available` statistic). -/
def available_trucks (demands : List (ℤ × ℤ)) (truck_capacity : ℤ)
    (difficulty : String) : ℤ :=
  n_trucks_of (min_total_required demands truck_capacity) difficulty

/-- `generator.py`, `_generate_demands` (lines 38–48): the always-both
policy, two `randint` draws per station. -/
def generate_demands (g : ℕ → ℚ) (minD maxD : ℤ) :
    ℕ → ℕ → Except PyErr (List (ℤ × ℤ) × ℕ)
  | 0, k => .ok ([], k)
  | n + 1, k =>
    if minD ≤ maxD then
      let de := randintVal minD maxD (g k)
      let dg := randintVal minD maxD (g (k + 1))
      match generate_demands g minD maxD n (k + 2) with
      | .error e => .error e
      | .ok (rest, k') => .ok ((de, dg) :: rest, k')
    else .error .valueError

end Generator

namespace Projet

/-- A site record of `projet.py`: id, display name, coordinates (already
rounded to 2 decimals), and global distance-matrix index. -/
structure Site where
  id : String
  name : String
  x : ℚ
  y : ℚ
  index : ℤ
  deriving DecidableEq, Repr

/-- A depot: a site plus per-product stock (lines 127–136). -/
structure Depot where
  id : String
  name : String
  x : ℚ
  y : ℚ
  index : ℤ
  stock_essence : ℤ
  stock_gasoil : ℤ
  deriving DecidableEq, Repr

/-- A station: a site plus per-product demand (lines 141–150). -/
structure Station where
  id : String
  name : String
  x : ℚ
  y : ℚ
  index : ℤ
  demand_essence : ℤ
  demand_gasoil : ℤ
  deriving DecidableEq, Repr

/-- A truck: id, home garage id, capacity (lines 166–170). -/
structure Truck where
  id : String
  home_garage : String
  capacity : ℤ
  deriving DecidableEq, Repr

/-- The configuration record passed to `projet.py`'s `generate_instance`.
Counts are `ℤ` because Python accepts negative counts (`range` of a
negative number is empty, which `Int.toNat` mirrors). -/
structure Cfg where
  n_garages : ℤ
  n_depots : ℤ
  n_stations : ℤ
  n_trucks : ℤ
  truck_capacity : ℤ
  zone_size : ℚ
  min_d : ℤ
  max_d : ℤ
  stock_multiplier : ℚ
  difficulty : String
  deriving DecidableEq, Repr

/-- The decidable part of the instance record assembled at lines 172–201.
The `generated_at` timestamp (clock I/O) and the real-valued distance
matrix and average-distance statistic are kept outside; the matrix is
`instanceMatrix` below, a function of the same data. -/
structure Instance where
  n_trucks : ℤ
  garages : List Site
  depots : List Depot
  stations : List Station
  trucks : List Truck
  total_demand_essence : ℤ
  total_demand_gasoil : ℤ
  total_stock_essence : ℤ
  total_stock_gasoil : ℤ
  deriving DecidableEq, Repr

/-- `_generate_coordinates` (lines 28–36): `n` coordinate pairs, each
`round(random.uniform(0, zone), 2)`, consuming two draws per site;
returns the list and the next draw index. -/
def sampleCoords (g : ℕ → ℚ) (zone : ℚ) : ℕ → ℕ → List (ℚ × ℚ) × ℕ
  | 0, k => ([], k)
  | n + 1, k =>
    let x := round2 (uniformDraw 0 zone (g k))
    let y := round2 (uniformDraw 0 zone (g (k + 1)))
    let (rest, k') := sampleCoords g zone n (k + 2)
    ((x, y) :: rest, k')

/-- One per-product presence-then-amount draw of lines 108–111: demand is
`0` unless `random.random() > threshold`, in which case
`random.randint(min_d, max_d)` is drawn (raising `ValueError` when
`min_d > max_d`). -/
def presenceDraw (g : ℕ → ℚ) (minD maxD : ℤ) (threshold : ℚ) (k : ℕ) :
    Except PyErr (ℤ × ℕ) :=
  if threshold < g k then
    if minD ≤ maxD then .ok (randintVal minD maxD (g (k + 1)), k + 2)
    else .error .valueError
  else .ok (0, k + 1)

/-- The demand loop of lines 102–115: per station, essence with an 80%
presence probability (`random.random() > 0.2`) then gasoil with 70%
(`> 0.3`). -/
def sampleStationDemands (g : ℕ → ℚ) (minD maxD : ℤ) :
    ℕ → ℕ → Except PyErr (List (ℤ × ℤ) × ℕ)
  | 0, k => .ok ([], k)
  | n + 1, k =>
    match presenceDraw g minD maxD (1/5) k with
    | .error e => .error e
    | .ok (de, k1) =>
      match presenceDraw g minD maxD (3/10) k1 with
      | .error e => .error e
      | .ok (dg, k2) =>
        match sampleStationDemands g minD maxD n k2 with
        | .error e => .error e
        | .ok (rest, k') => .ok ((de, dg) :: rest, k')

/-- The depot-stock loop of lines 118–125: per depot, each product's stock
is `int(base * random.uniform(0.8, 1.2))` where
`base = total_demand * stock_multiplier / n_depots`. -/
def sampleStocks (g : ℕ → ℚ) (baseE baseG : ℚ) : ℕ → ℕ → List (ℤ × ℤ) × ℕ
  | 0, k => ([], k)
  | n + 1, k =>
    let se := int_ (baseE * uniformDraw (8/10) (12/10) (g k))
    let sg := int_ (baseG * uniformDraw (8/10) (12/10) (g (k + 1)))
    let (rest, k') := sampleStocks g baseE baseG n (k + 2)
    ((se, sg) :: rest, k')

/-- The per-truck capacity of lines 158–164: `int(truck_capacity * u)` with
`u = random.uniform(1.0, 1.2)` for easy, `(0.9, 1.1)` for medium and
`(0.7, 1.0)` for anything else (hard). -/
def capacityOf (difficulty : String) (truckCap : ℤ) (r : ℚ) : ℤ :=
  if difficulty = "easy" then int_ (truckCap * uniformDraw 1 (12/10) r)
  else if difficulty = "medium" then int_ (truckCap * uniformDraw (9/10) (11/10) r)
  else int_ (truckCap * uniformDraw (7/10) 1 r)

/-- The truck loop of lines 152–170, building trucks `T(i₀+1), …`:
`random.choice(garages)` (raising `IndexError` on an empty garage list)
then the capacity draw. -/
def sampleTrucksFrom (g : ℕ → ℚ) (garages : List Site) (difficulty : String)
    (truckCap : ℤ) : ℕ → ℕ → ℕ → Except PyErr (List Truck × ℕ)
  | _, 0, k => .ok ([], k)
  | i, n + 1, k =>
    match garages.get? (choiceIdx garages.length (g k)) with
    | none => .error .indexError
    | some gar =>
      let cap := capacityOf difficulty truckCap (g (k + 1))
      match sampleTrucksFrom g garages difficulty truckCap (i + 1) n (k + 2) with
      | .error e => .error e
      | .ok (rest, k') =>
        .ok ({ id := "T" ++ toString (i + 1), home_garage := gar.id,
               capacity := cap } :: rest, k')

/-- The garage records of lines 87–94: id `G(i+1)`, index `i`. -/
def mkGarages (coords : List (ℚ × ℚ)) (n : ℕ) : List Site :=
  (List.range n).map fun i =>
    { id := "G" ++ toString (i + 1), name := "Garage_" ++ toString (i + 1),
      x := (coords.getD i (0, 0)).1, y := (coords.getD i (0, 0)).2,
      index := (i : ℤ) }

/-- The depot records of lines 118–136: id `D(i+1)`, index `n_garages + i`,
stocks from the stock loop. -/
def mkDepots (coords : List (ℚ × ℚ)) (stocks : List (ℤ × ℤ)) (nGar : ℤ)
    (n : ℕ) : List Depot :=
  (List.range n).map fun i =>
    { id := "D" ++ toString (i + 1), name := "Depot_" ++ toString (i + 1),
      x := (coords.getD i (0, 0)).1, y := (coords.getD i (0, 0)).2,
      index := nGar + (i : ℤ),
      stock_essence := (stocks.getD i (0, 0)).1,
      stock_gasoil := (stocks.getD i (0, 0)).2 }

/-- The station records of lines 139–150: id `S(i+1)`,
index `n_garages + n_depots + i`, demands from the demand loop. -/
def mkStations (coords : List (ℚ × ℚ)) (demands : List (ℤ × ℤ))
    (nGar nDep : ℤ) (n : ℕ) : List Station :=
  (List.range n).map fun i =>
    { id := "S" ++ toString (i + 1), name := "Station_" ++ toString (i + 1),
      x := (coords.getD i (0, 0)).1, y := (coords.getD i (0, 0)).2,
      index := nGar + nDep + (i : ℤ),
      demand_essence := (demands.getD i (0, 0)).1,
      demand_gasoil := (demands.getD i (0, 0)).2 }

/-- `projet.py`'s `generate_instance` (lines 51–206), with the final draw
counter: coordinates for garages, depots, stations (in that order), the
demand loop, the stock loop, the station records, the truck loop, then the
average-distance statistic (which raises `ValueError` from `min()` on an
empty sequence when there are stations but no depots) and the two
feasibility assertions of `_verify_feasibility` (lines 218–226), essence
first.  No input validation is performed anywhere. -/
def projGenerate' (cfg : Cfg) (g : ℕ → ℚ) : Except PyErr (Instance × ℕ) :=
  let nG := cfg.n_garages.toNat
  let nD := cfg.n_depots.toNat
  let nS := cfg.n_stations.toNat
  let nT := cfg.n_trucks.toNat
  let rg := sampleCoords g cfg.zone_size nG 0
  let rd := sampleCoords g cfg.zone_size nD rg.2
  let rs := sampleCoords g cfg.zone_size nS rd.2
  let garages := mkGarages rg.1 nG
  match sampleStationDemands g cfg.min_d cfg.max_d nS rs.2 with
  | .error e => .error e
  | .ok td =>
    let temp := td.1
    let totE := (temp.map Prod.fst).sum
    let totG := (temp.map Prod.snd).sum
    let rst := sampleStocks g
      ((totE : ℚ) * cfg.stock_multiplier / (cfg.n_depots : ℚ))
      ((totG : ℚ) * cfg.stock_multiplier / (cfg.n_depots : ℚ)) nD td.2
    let stocks := rst.1
    let depots := mkDepots rd.1 stocks cfg.n_garages nD
    let stations := mkStations rs.1 temp cfg.n_garages cfg.n_depots nS
    match sampleTrucksFrom g garages cfg.difficulty cfg.truck_capacity 0 nT rst.2 with
    | .error e => .error e
    | .ok tk =>
      let stockE := (stocks.map Prod.fst).sum
      let stockG := (stocks.map Prod.snd).sum
      if nS ≠ 0 ∧ nD = 0 then .error .valueError
      else if ¬ (totE ≤ stockE) then .error .assertionError
      else if ¬ (totG ≤ stockG) then .error .assertionError
      else .ok ({ n_trucks := cfg.n_trucks, garages := garages,
                  depots := depots, stations := stations, trucks := tk.1,
                  total_demand_essence := totE, total_demand_gasoil := totG,
                  total_stock_essence := stockE,
                  total_stock_gasoil := stockG }, tk.2)

/-- The instance returned to the caller. -/
def projGenerate (cfg : Cfg) (g : ℕ → ℚ) : Except PyErr Instance :=
  (projGenerate' cfg g).map Prod.fst

/-- The concatenated coordinate list `garage_coords + depot_coords +
station_coords` of line 81, from which the distance matrix is computed. -/
def allCoords (cfg : Cfg) (g : ℕ → ℚ) : List (ℚ × ℚ) :=
  let rg := sampleCoords g cfg.zone_size cfg.n_garages.toNat 0
  let rd := sampleCoords g cfg.zone_size cfg.n_depots.toNat rg.2
  let rs := sampleCoords g cfg.zone_size cfg.n_stations.toNat rd.2
  rg.1 ++ rd.1 ++ rs.1

/-- `_euclidean_distance` (lines 24–26):
`sqrt((x₁-x₂)² + (y₁-y₂)²)`, over `ℝ`. -/
noncomputable def euclidean_distance (p q : ℚ × ℚ) : ℝ :=
  Real.sqrt (((p.1 : ℝ) - q.1) ^ 2 + ((p.2 : ℝ) - q.2) ^ 2)

/-- `round(x, 2)` on the real distance values. -/
noncomputable def round2R (x : ℝ) : ℝ := ((round (x * 100) : ℤ) : ℝ) / 100

/-- `_compute_distance_matrix` (lines 38–49) as an entry function: the
matrix starts as zeros, and for `i < j` the rounded distance is written to
both `[i][j]` and `[j][i]`; the diagonal is never written. -/
noncomputable def compute_distance_matrix (coords : List (ℚ × ℚ))
    (i j : ℕ) : ℝ :=
  if i = j then 0
  else if i < j then
    round2R (euclidean_distance (coords.getD i (0, 0)) (coords.getD j (0, 0)))
  else
    round2R (euclidean_distance (coords.getD j (0, 0)) (coords.getD i (0, 0)))

/-- The distance matrix of the generated instance (line 84 of the source:
computed from the same concatenated coordinate list). -/
noncomputable def instanceMatrix (cfg : Cfg) (g : ℕ → ℚ) : ℕ → ℕ → ℝ :=
  compute_distance_matrix (allCoords cfg g)

/-- A coordinate pair as a point of the Euclidean plane, used to relate
`euclidean_distance` to the metric of `EuclideanSpace`. -/
noncomputable def pointR (p : ℚ × ℚ) : EuclideanSpace ℝ (Fin 2) :=
  ![(p.1 : ℝ), (p.2 : ℝ)]

end Projet

/-! ### Lemmas about the double-rounding model -/

/-- Ceiling via floor, so `norm_num`'s floor extension can evaluate it. -/
theorem ceil_eval (x : ℚ) : ⌈x⌉ = -⌊-x⌋ := by
  rw [Int.floor_neg, neg_neg]

theorem log2'_bounds (n : ℕ) (h : 1 ≤ n) :
    2 ^ log2' n ≤ n ∧ n < 2 ^ (log2' n + 1) := by
  induction n using Nat.strong_induction_on with
  | _ n ih =>
    rw [log2']
    by_cases h1 : n ≤ 1
    · simp only [h1, if_true]
      norm_num
      omega
    · simp only [h1, if_false]
      have hrec := ih (n / 2) (Nat.div_lt_self (by omega) (by omega)) (by omega)
      simp only [pow_succ] at hrec ⊢
      omega

theorem log2'_eq_of (n e : ℕ) (hl : 2 ^ e ≤ n) (hh : n < 2 ^ (e + 1)) :
    log2' n = e := by
  have h1 : 1 ≤ n := le_trans (Nat.one_le_two_pow) hl
  have hb := log2'_bounds n h1
  rcases lt_trichotomy (log2' n) e with hlt | heq | hgt
  · have : 2 ^ (log2' n + 1) ≤ 2 ^ e := Nat.pow_le_pow_right (by omega) (by omega)
    omega
  · exact heq
  · have : 2 ^ (e + 1) ≤ 2 ^ log2' n := Nat.pow_le_pow_right (by omega) (by omega)
    omega

theorem floor_le_rne (x : ℚ) : ⌊x⌋ ≤ rne x := by
  unfold rne
  split <;> [skip; split <;> [skip; split]] <;> omega

theorem rne_le_floor_add_one (x : ℚ) : rne x ≤ ⌊x⌋ + 1 := by
  unfold rne
  split <;> [skip; split <;> [skip; split]] <;> omega

theorem rne_intCast (n : ℤ) : rne (n : ℚ) = n := by
  norm_num [rne]

theorem abs_rne_sub (x : ℚ) : |(rne x : ℚ) - x| ≤ 1 / 2 := by
  have hf1 : (⌊x⌋ : ℚ) ≤ x := Int.floor_le x
  have hf2 : x < (⌊x⌋ : ℚ) + 1 := Int.lt_floor_add_one x
  unfold rne
  split <;> rename_i hc1
  · rw [abs_le]; constructor <;> linarith
  · split <;> rename_i hc2
    · rw [abs_le]; push_cast; constructor <;> linarith
    · split <;> rw [abs_le] <;> push_cast <;> constructor <;> linarith

theorem rne_le_int (x : ℚ) (j : ℤ) (h : x ≤ (j : ℚ)) : rne x ≤ j := by
  rcases eq_or_lt_of_le h with heq | hlt
  · rw [heq, rne_intCast]
  · have hfl : ⌊x⌋ < j := Int.floor_lt.mpr hlt
    have := rne_le_floor_add_one x
    omega

theorem int_le_rne (x : ℚ) (j : ℤ) (h : (j : ℚ) ≤ x) : j ≤ rne x := by
  have hfl : j ≤ ⌊x⌋ := Int.le_floor.mpr h
  have := floor_le_rne x
  omega

theorem one_le_two_pow_q (e : ℕ) : (1 : ℚ) ≤ 2 ^ e := by
  calc (1 : ℚ) = 2 ^ 0 := by norm_num
    _ ≤ 2 ^ e := pow_le_pow_right₀ (by norm_num) (Nat.zero_le e)

theorem fl_of_nonneg (q : ℚ) (h : 0 ≤ q) : fl q = flPos q := by
  rw [fl, if_neg (not_lt.mpr h)]

theorem fl_of_lt_one (q : ℚ) (h0 : 0 ≤ q) (h : q < 1) : fl q = q := by
  rw [fl_of_nonneg q h0, flPos, if_pos h]

theorem flPos_eval (q : ℚ) (e : ℕ) (hl : (2 : ℚ) ^ e ≤ q)
    (hh : q < 2 ^ (e + 1)) (he : e ≤ 52) :
    flPos q = (rne (q * 2 ^ (52 - e)) : ℚ) / 2 ^ (52 - e) := by
  have h1 : (1 : ℚ) ≤ q := le_trans (one_le_two_pow_q e) hl
  have hfloor1 : (2 ^ e : ℤ) ≤ ⌊q⌋ := Int.le_floor.mpr (by push_cast; exact hl)
  have hfloor2 : ⌊q⌋ < (2 ^ (e + 1) : ℤ) := by
    rw [Int.floor_lt]; push_cast; exact hh
  have h0 : (0 : ℤ) ≤ ⌊q⌋ := le_trans (by positivity) hfloor1
  have htn : log2' ⌊q⌋.toNat = e := by
    apply log2'_eq_of
    · zify [Int.toNat_of_nonneg h0]
      exact_mod_cast hfloor1
    · zify [Int.toNat_of_nonneg h0]
      exact_mod_cast hfloor2
  rw [flPos, if_neg (not_lt.mpr h1)]
  simp only [htn, if_pos he]

theorem flPos_eval_hi (q : ℚ) (e : ℕ) (hl : (2 : ℚ) ^ e ≤ q)
    (hh : q < 2 ^ (e + 1)) (he : 53 ≤ e) :
    flPos q = (rne (q / 2 ^ (e - 52)) : ℚ) * 2 ^ (e - 52) := by
  have h1 : (1 : ℚ) ≤ q := le_trans (one_le_two_pow_q e) hl
  have hfloor1 : (2 ^ e : ℤ) ≤ ⌊q⌋ := Int.le_floor.mpr (by push_cast; exact hl)
  have hfloor2 : ⌊q⌋ < (2 ^ (e + 1) : ℤ) := by
    rw [Int.floor_lt]; push_cast; exact hh
  have h0 : (0 : ℤ) ≤ ⌊q⌋ := le_trans (by positivity) hfloor1
  have htn : log2' ⌊q⌋.toNat = e := by
    apply log2'_eq_of
    · zify [Int.toNat_of_nonneg h0]
      exact_mod_cast hfloor1
    · zify [Int.toNat_of_nonneg h0]
      exact_mod_cast hfloor2
  rw [flPos, if_neg (not_lt.mpr h1)]
  simp only [htn, if_neg (by omega : ¬ e ≤ 52)]

/-- Bracketing exponent for a rational `1 ≤ x`: the `log2'` of its floor. -/
theorem exists_exp (x : ℚ) (hx : 1 ≤ x) :
    ∃ e : ℕ, (2 : ℚ) ^ e ≤ x ∧ x < 2 ^ (e + 1) := by
  have hfl : (1 : ℤ) ≤ ⌊x⌋ := Int.le_floor.mpr (by exact_mod_cast hx)
  have htn : (⌊x⌋.toNat : ℤ) = ⌊x⌋ := Int.toNat_of_nonneg (by omega)
  have htnq : (⌊x⌋.toNat : ℚ) = (⌊x⌋ : ℚ) := by exact_mod_cast congrArg Int.cast htn
  obtain ⟨hb1, hb2⟩ := log2'_bounds ⌊x⌋.toNat (by omega)
  refine ⟨log2' ⌊x⌋.toNat, ?_, ?_⟩
  · have h2 : ((2 ^ log2' ⌊x⌋.toNat : ℕ) : ℚ) ≤ (⌊x⌋.toNat : ℚ) := by
      exact_mod_cast hb1
    rw [htnq] at h2
    calc (2 : ℚ) ^ log2' ⌊x⌋.toNat = ((2 ^ log2' ⌊x⌋.toNat : ℕ) : ℚ) := by
          push_cast; ring
      _ ≤ (⌊x⌋ : ℚ) := h2
      _ ≤ x := Int.floor_le x
  · have h2 : (⌊x⌋.toNat : ℚ) + 1 ≤ ((2 ^ (log2' ⌊x⌋.toNat + 1) : ℕ) : ℚ) := by
      exact_mod_cast hb2
    rw [htnq] at h2
    calc x < (⌊x⌋ : ℚ) + 1 := Int.lt_floor_add_one x
      _ ≤ ((2 ^ (log2' ⌊x⌋.toNat + 1) : ℕ) : ℚ) := h2
      _ = 2 ^ (log2' ⌊x⌋.toNat + 1) := by push_cast; ring

theorem fl_zero : fl 0 = 0 := by
  rw [fl_of_nonneg 0 le_rfl, flPos, if_pos (by norm_num)]

theorem fl_int (n : ℤ) (h0 : 0 ≤ n) (hn : n < 2 ^ 53) : fl (n : ℚ) = n := by
  rcases eq_or_lt_of_le h0 with h | h
  · rw [← h]
    exact_mod_cast fl_zero
  · have h1 : (1 : ℚ) ≤ (n : ℚ) := by exact_mod_cast h
    obtain ⟨e, he1, he2⟩ := exists_exp (n : ℚ) h1
    have he52 : e ≤ 52 := by
      by_contra hc
      have hp : (2 : ℚ) ^ 53 ≤ (2 : ℚ) ^ e := pow_le_pow_right₀ (by norm_num) (by omega)
      have hq : ((2 ^ 53 : ℤ) : ℚ) ≤ (n : ℚ) := by push_cast; linarith
      have hzq : (2 ^ 53 : ℤ) ≤ n := by exact_mod_cast hq
      omega
    rw [fl_of_nonneg _ (by positivity), flPos_eval _ e he1 he2 he52]
    have hcast : ((n : ℚ)) * 2 ^ (52 - e) = ((n * 2 ^ (52 - e) : ℤ) : ℚ) := by
      push_cast; ring
    have hs : ((2 : ℚ)) ^ (52 - e) ≠ 0 := by positivity
    rw [hcast, rne_intCast]
    push_cast
    field_simp

theorem fl_err (x : ℚ) (hx : 1 ≤ x) : |fl x - x| ≤ x / 2 ^ 53 := by
  obtain ⟨e, he1, he2⟩ := exists_exp x hx
  rw [fl_of_nonneg _ (by linarith)]
  by_cases he : e ≤ 52
  · rw [flPos_eval x e he1 he2 he]
    have hs : (0 : ℚ) < 2 ^ (52 - e) := by positivity
    have habs := abs_rne_sub (x * 2 ^ (52 - e))
    have key : (rne (x * 2 ^ (52 - e)) : ℚ) / 2 ^ (52 - e) - x
        = ((rne (x * 2 ^ (52 - e)) : ℚ) - x * 2 ^ (52 - e)) / 2 ^ (52 - e) := by
      field_simp
      ring
    rw [key, abs_div, abs_of_pos hs]
    have step1 : |(rne (x * 2 ^ (52 - e)) : ℚ) - x * 2 ^ (52 - e)| / 2 ^ (52 - e)
        ≤ (1 / 2) / 2 ^ (52 - e) := by gcongr
    have step2 : ((1 : ℚ) / 2) / 2 ^ (52 - e) = (2 : ℚ) ^ e / 2 ^ 53 := by
      rw [div_eq_div_iff (by positivity) (by positivity)]
      have hpow : (2 : ℚ) ^ e * 2 ^ (52 - e) = 2 ^ 52 := by
        rw [← pow_add]
        congr 1
        omega
      have h53 : (2 : ℚ) ^ 53 = 2 ^ 52 * 2 := by
        rw [← pow_succ]
      nlinarith [hpow, h53]
    have step3 : (2 : ℚ) ^ e / 2 ^ 53 ≤ x / 2 ^ 53 := by gcongr
    linarith
  · rw [flPos_eval_hi x e he1 he2 (by omega)]
    have hs : (0 : ℚ) < 2 ^ (e - 52) := by positivity
    have habs := abs_rne_sub (x / 2 ^ (e - 52))
    have key : (rne (x / 2 ^ (e - 52)) : ℚ) * 2 ^ (e - 52) - x
        = ((rne (x / 2 ^ (e - 52)) : ℚ) - x / 2 ^ (e - 52)) * 2 ^ (e - 52) := by
      field_simp
    rw [key, abs_mul, abs_of_pos hs]
    have step1 : |(rne (x / 2 ^ (e - 52)) : ℚ) - x / 2 ^ (e - 52)| * 2 ^ (e - 52)
        ≤ (1 / 2) * 2 ^ (e - 52) := by gcongr
    have step2 : ((1 : ℚ) / 2) * 2 ^ (e - 52) ≤ x / 2 ^ 53 := by
      rw [le_div_iff₀ (by positivity : (0 : ℚ) < 2 ^ 53)]
      have hpow : ((1 : ℚ) / 2) * 2 ^ (e - 52) * 2 ^ 53 = 2 ^ e := by
        rw [mul_assoc, ← pow_add]
        have h1 : e - 52 + 53 = e + 1 := by omega
        rw [h1, pow_succ]
        ring
      rw [hpow]
      exact he1
    linarith

theorem fl_le_int (x : ℚ) (j : ℤ) (hx : 1 ≤ x) (hxb : x < 2 ^ 53)
    (hj : x ≤ (j : ℚ)) : fl x ≤ (j : ℚ) := by
  obtain ⟨e, he1, he2⟩ := exists_exp x hx
  have he52 : e ≤ 52 := by
    by_contra hc
    have hp : (2 : ℚ) ^ 53 ≤ (2 : ℚ) ^ e := pow_le_pow_right₀ (by norm_num) (by omega)
    linarith
  rw [fl_of_nonneg _ (by linarith), flPos_eval x e he1 he2 he52]
  have hs : (0 : ℚ) < 2 ^ (52 - e) := by positivity
  rw [div_le_iff₀ hs]
  have hstep : x * 2 ^ (52 - e) ≤ ((j * 2 ^ (52 - e) : ℤ) : ℚ) := by
    push_cast
    exact mul_le_mul_of_nonneg_right hj (le_of_lt hs)
  have hrne := rne_le_int _ _ hstep
  calc (rne (x * 2 ^ (52 - e)) : ℚ) ≤ ((j * 2 ^ (52 - e) : ℤ) : ℚ) := by
        exact_mod_cast hrne
    _ = (j : ℚ) * 2 ^ (52 - e) := by push_cast; ring

theorem int_le_fl (x : ℚ) (j : ℤ) (hx : 1 ≤ x) (hxb : x < 2 ^ 53)
    (hj : (j : ℚ) ≤ x) : (j : ℚ) ≤ fl x := by
  obtain ⟨e, he1, he2⟩ := exists_exp x hx
  have he52 : e ≤ 52 := by
    by_contra hc
    have hp : (2 : ℚ) ^ 53 ≤ (2 : ℚ) ^ e := pow_le_pow_right₀ (by norm_num) (by omega)
    linarith
  rw [fl_of_nonneg _ (by linarith), flPos_eval x e he1 he2 he52]
  have hs : (0 : ℚ) < 2 ^ (52 - e) := by positivity
  rw [le_div_iff₀ hs]
  have hstep : ((j * 2 ^ (52 - e) : ℤ) : ℚ) ≤ x * 2 ^ (52 - e) := by
    push_cast
    exact mul_le_mul_of_nonneg_right hj (le_of_lt hs)
  have hrne := int_le_rne _ _ hstep
  calc (j : ℚ) * 2 ^ (52 - e) = ((j * 2 ^ (52 - e) : ℤ) : ℚ) := by push_cast; ring
    _ ≤ (rne (x * 2 ^ (52 - e)) : ℚ) := by exact_mod_cast hrne

/-- Exactness of the float ceiling-of-quotient for all demands below `2^53`
and capacities below `2^53`: in this range the double computation of
`_calculate_required_trucks` agrees with exact arithmetic. -/
theorem float_ceil_div_exact (D C : ℤ) (hD1 : 1 ≤ D) (hD : D < 2 ^ 53)
    (hC : 0 < C) (hCb : C < 2 ^ 53) :
    ⌈fl (fl (D : ℚ) / fl (C : ℚ))⌉ = ⌈(D : ℚ) / (C : ℚ)⌉ := by
  rw [fl_int D (by omega) hD, fl_int C (by omega) hCb]
  set x : ℚ := (D : ℚ) / (C : ℚ) with hxdef
  have hCq : (0 : ℚ) < (C : ℚ) := by exact_mod_cast hC
  have hx0 : 0 < x := by positivity
  by_cases hx1 : x < 1
  · rw [fl_of_lt_one x (le_of_lt hx0) hx1]
  · push_neg at hx1
    have hxD : x ≤ (D : ℚ) := by
      rw [hxdef, div_le_iff₀ hCq]
      have h1C : (1 : ℚ) ≤ (C : ℚ) := by exact_mod_cast hC
      have hD1q : (1 : ℚ) ≤ (D : ℚ) := by exact_mod_cast hD1
      nlinarith [hD1q, h1C]
    have hxb : x < 2 ^ 53 := lt_of_le_of_lt hxD (by exact_mod_cast hD)
    set j : ℤ := ⌈x⌉ with hjdef
    have hxj : x ≤ (j : ℚ) := Int.le_ceil x
    have hjx : ((j : ℚ)) - 1 < x := by
      have := Int.ceil_lt_add_one x
      push_cast at this ⊢
      linarith
    rcases eq_or_lt_of_le hxj with heq | hlt
    · -- the quotient is an exact integer
      have hjb : j < 2 ^ 53 := by
        have hq : (j : ℚ) < 2 ^ 53 := by rw [← heq]; exact hxb
        exact_mod_cast hq
      have hj0 : 0 ≤ j := by
        have hq : (0 : ℚ) < (j : ℚ) := by rw [← heq]; exact hx0
        exact_mod_cast le_of_lt hq
      rw [heq, fl_int j hj0 hjb]
      exact Int.ceil_intCast j
    · -- j - 1 < x < j : show the rounded quotient stays in (j-1, j]
      have hup : fl x ≤ (j : ℚ) := fl_le_int x j hx1 hxb hxj
      have herr := fl_err x hx1
      have hlow : ((j : ℚ)) - 1 < fl x := by
        -- x - (j-1) ≥ 1/C while the rounding error is < 1/C
        have hgap : (1 : ℚ) / (C : ℚ) ≤ x - ((j : ℚ) - 1) := by
          have hDC : (C : ℤ) * (j - 1) < D := by
            have hq : ((C : ℚ)) * ((j : ℚ) - 1) < (D : ℚ) := by
              rw [hxdef] at hjx
              rw [mul_comm]
              calc ((j : ℚ) - 1) * (C : ℚ) < (D : ℚ) / (C : ℚ) * (C : ℚ) := by
                    exact mul_lt_mul_of_pos_right hjx hCq
                _ = (D : ℚ) := by field_simp
            have hq2 : ((C * (j - 1) : ℤ) : ℚ) < ((D : ℤ) : ℚ) := by push_cast; linarith
            exact_mod_cast hq2
          have hDC1 : (C : ℤ) * (j - 1) + 1 ≤ D := hDC
          have hiden : x - ((j : ℚ) - 1)
              = ((D : ℚ) - (C : ℚ) * ((j : ℚ) - 1)) / (C : ℚ) := by
            rw [hxdef]
            field_simp
          have hnum : (1 : ℚ) ≤ (D : ℚ) - (C : ℚ) * ((j : ℚ) - 1) := by
            have hq : ((C * (j - 1) + 1 : ℤ) : ℚ) ≤ (D : ℚ) := by exact_mod_cast hDC1
            push_cast at hq
            linarith
          rw [hiden]
          gcongr
        have hsmall : x / 2 ^ 53 < 1 / (C : ℚ) := by
          rw [div_lt_div_iff₀ (by positivity) hCq]
          have hDlt : (D : ℚ) < 2 ^ 53 := by exact_mod_cast hD
          calc x * (C : ℚ) ≤ (D : ℚ) := by
                rw [hxdef]; field_simp
            _ < 2 ^ 53 := hDlt
            _ = 1 * 2 ^ 53 := by ring
        have habs := abs_le.mp herr
        linarith [habs.1]
      have h1 : ⌈fl x⌉ ≤ j := Int.ceil_le.mpr hup
      have h2 : j ≤ ⌈fl x⌉ := by
        have : ((j - 1 : ℤ) : ℚ) < fl x := by push_cast; linarith
        have := Int.lt_ceil.mpr this
        omega
      omega

/-! ### Claim C1 -/

/-- C1 (amended): for every demand sample, capacity and difficulty in
{easy, medium, hard}, the number of available trucks equals
`max(2, minimum_required_trucks, ceil(minimum_required_trucks * margin))`
where the margin is the exact double-precision value of the literals
`1.2` / `1.1` / `1.0` and the multiplication and ceiling are computed in
double arithmetic as the code does; in particular the available trucks are
always at least the minimum required and at least 2, and when total demand
is zero the count is exactly 2.  (With the margins read as exact decimals
the stated equality is false; see the counterexample.) -/
theorem C1_available_trucks (demands : List (ℤ × ℤ)) (C : ℤ) (d : String)
    (_hd : d = "easy" ∨ d = "medium" ∨ d = "hard") :
    Generator.truck_margin "easy" = 5404319552844595 / 2 ^ 52 ∧
    Generator.truck_margin "medium" = 4953959590107546 / 2 ^ 52 ∧
    Generator.truck_margin "hard" = 1 ∧
    Generator.available_trucks demands C d
      = max 2 (max (Generator.min_total_required demands C)
          ⌈fl (fl ((Generator.min_total_required demands C : ℤ) : ℚ)
              * Generator.truck_margin d)⌉) ∧
    Generator.min_total_required demands C ≤ Generator.available_trucks demands C d ∧
    2 ≤ Generator.available_trucks demands C d ∧
    (Generator.total_essence demands = 0 ∧ Generator.total_gasoil demands = 0 →
      Generator.available_trucks demands C d = 2) := by
  refine ⟨by rw [Generator.truck_margin, if_pos rfl]; norm_num [fp12],
    by rw [Generator.truck_margin, if_neg (by decide), if_pos rfl]; norm_num [fp11],
    by rw [Generator.truck_margin, if_neg (by decide), if_neg (by decide)], ?_, ?_, ?_, ?_⟩
  · simp only [Generator.available_trucks, Generator.n_trucks_of]
    generalize ⌈fl (fl ((Generator.min_total_required demands C : ℤ) : ℚ)
      * Generator.truck_margin d)⌉ = X
    omega
  · simp only [Generator.available_trucks, Generator.n_trucks_of]
    generalize ⌈fl (fl ((Generator.min_total_required demands C : ℤ) : ℚ)
      * Generator.truck_margin d)⌉ = X
    omega
  · simp only [Generator.available_trucks, Generator.n_trucks_of]
    generalize ⌈fl (fl ((Generator.min_total_required demands C : ℤ) : ℚ)
      * Generator.truck_margin d)⌉ = X
    omega
  · rintro ⟨hE, hG⟩
    have hm : Generator.min_total_required demands C = 0 := by
      simp only [Generator.min_total_required, hE, hG,
        Generator.calculate_required_trucks, if_pos rfl]
      norm_num
    simp only [Generator.available_trucks, Generator.n_trucks_of, hm]
    have h0 : fl ((((0 : ℤ)) : ℚ)) = 0 := by
      rw [Int.cast_zero]
      exact fl_zero
    rw [h0, zero_mul, fl_zero, Int.ceil_zero]
    norm_num

/-- C1 witness: the amended theorem applied at the concrete sample
`[(3, 4)]`, capacity 1, difficulty hard. -/
theorem C1_available_trucks_witness :
    Generator.min_total_required [((3 : ℤ), (4 : ℤ))] 1
      ≤ Generator.available_trucks [((3 : ℤ), (4 : ℤ))] 1 "hard" :=
  (C1_available_trucks [((3 : ℤ), (4 : ℤ))] 1 "hard" (Or.inr (Or.inr rfl))).2.2.2.2.1

/-- C1 counterexample: with the margins read as exact decimals, the claimed
formula fails on the code.  For `minimum_required_trucks = 50` and
difficulty medium, Python computes `math.ceil(50 * 1.1) = 56` (because the
double `1.1` is slightly above `11/10`), while
`max(2, 50, ceil(50 * 1.10)) = 55`. -/
theorem C1_margin_formula_counterexample :
    Generator.n_trucks_of 50 "medium"
        ≠ max 2 (max 50 ⌈(50 : ℚ) * Generator.margin_spec "medium"⌉) ∧
    Generator.n_trucks_of 50 "medium" = 56 ∧
    max 2 (max (50 : ℤ) ⌈(50 : ℚ) * Generator.margin_spec "medium"⌉) = 55 := by
  have h50 : fl (((50 : ℤ)) : ℚ) = ((50 : ℤ) : ℚ) := fl_int 50 (by norm_num) (by norm_num)
  have harg : fl (((50 : ℤ) : ℚ) * fp11) = 7740561859543041 / 2 ^ 47 := by
    rw [fl_of_nonneg _ (by norm_num [fp11])]
    rw [flPos_eval (((50 : ℤ) : ℚ) * fp11) 5 (by norm_num [fp11])
      (by norm_num [fp11]) (by norm_num)]
    norm_num [rne, fp11]
  have hceil : (⌈fl (((50 : ℤ) : ℚ) * fp11)⌉ : ℤ) = 56 := by
    rw [harg, ceil_eval]
    norm_num
  have hmar : Generator.truck_margin "medium" = fp11 := by
    rw [Generator.truck_margin, if_neg (by decide), if_pos rfl]
  have hlhs : Generator.n_trucks_of 50 "medium" = 56 := by
    rw [Generator.n_trucks_of, hmar, h50, hceil]
    omega
  have hmar2 : Generator.margin_spec "medium" = 11 / 10 := by
    rw [Generator.margin_spec, if_neg (by decide), if_pos rfl]
  have hrhs : max 2 (max (50 : ℤ) ⌈(50 : ℚ) * Generator.margin_spec "medium"⌉) = 55 := by
    rw [hmar2, show ((50 : ℚ) * (11 / 10)) = 55 by norm_num, ceil_eval,
      show (⌊-(55 : ℚ)⌋ : ℤ) = -55 by norm_num]
    omega
  exact ⟨by rw [hlhs, hrhs]; norm_num, hlhs, hrhs⟩

/-! ### Claim C2 -/

/-- C2 (amended): the per-product minimum equals the exact `⌈D / C⌉` for
all demands and capacities of magnitude below `2^53` (where the code's
double-precision quotient is exact enough), equals 0 when the demand is 0,
and the total minimum fleet size is the sum of the per-product minima.
Beyond `2^53` the float division can deviate; see the counterexample. -/
theorem C2_required_trucks (D C : ℤ) (demands : List (ℤ × ℤ)) (hC : 0 < C)
    (hD0 : 0 ≤ D) (hDb : D < 2 ^ 53) (hCb : C < 2 ^ 53) :
    Generator.calculate_required_trucks 0 C = 0 ∧
    Generator.calculate_required_trucks D C = ⌈(D : ℚ) / (C : ℚ)⌉ ∧
    Generator.calculate_required_trucks D C = Generator.required_trucks_spec D C ∧
    Generator.min_total_required demands C
      = Generator.calculate_required_trucks (Generator.total_essence demands) C
        + Generator.calculate_required_trucks (Generator.total_gasoil demands) C := by
  have hmain : Generator.calculate_required_trucks D C = ⌈(D : ℚ) / (C : ℚ)⌉ := by
    by_cases hD : D = 0
    · subst hD
      simp [Generator.calculate_required_trucks]
    · rw [Generator.calculate_required_trucks, if_neg hD]
      exact float_ceil_div_exact D C (by omega) hDb hC hCb
  refine ⟨by simp [Generator.calculate_required_trucks], hmain, ?_, rfl⟩
  rw [hmain, Generator.required_trucks_spec]
  by_cases hD : D = 0
  · subst hD
    simp
  · rw [if_neg hD]

/-- C2 witness: the amended theorem at demand 7, capacity 3 (and the
sample `[(7, 0)]`): `⌈7/3⌉ = 3`. -/
theorem C2_required_trucks_witness :
    Generator.calculate_required_trucks 7 3 = ⌈((7 : ℤ) : ℚ) / ((3 : ℤ) : ℚ)⌉ :=
  (C2_required_trucks 7 3 [((7 : ℤ), (0 : ℤ))] (by norm_num) (by norm_num)
    (by norm_num) (by norm_num)).2.1

/-- C2 counterexample: at `D = 2^53 + 1`, `C = 2^53` the code computes
`math.ceil(D / C) = 1` (the double quotient rounds to exactly `1.0`),
while the exact `⌈D / C⌉ = 2`: the claimed equality fails for huge inputs,
and the resulting fleet would even be under-provisioned. -/
theorem C2_float_div_counterexample :
    Generator.calculate_required_trucks (2 ^ 53 + 1) (2 ^ 53) = 1 ∧
    Generator.required_trucks_spec (2 ^ 53 + 1) (2 ^ 53) = 2 := by
  have hD : fl (((2 ^ 53 + 1 : ℤ)) : ℚ) = 2 ^ 53 := by
    have hc : (((2 ^ 53 + 1 : ℤ)) : ℚ) = 2 ^ 53 + 1 := by push_cast; ring
    rw [hc, fl_of_nonneg _ (by positivity), flPos_eval_hi (2 ^ 53 + 1) 53
      (by norm_num) (by norm_num) (by norm_num)]
    norm_num [rne]
  have hC : fl (((2 ^ 53 : ℤ)) : ℚ) = 2 ^ 53 := by
    have hc : (((2 ^ 53 : ℤ)) : ℚ) = 2 ^ 53 := by push_cast; ring
    rw [hc, fl_of_nonneg _ (by positivity), flPos_eval_hi (2 ^ 53) 53
      (by norm_num) (by norm_num) (by norm_num)]
    norm_num [rne]
  constructor
  · rw [Generator.calculate_required_trucks, if_neg (by norm_num), hD, hC]
    rw [show ((2 ^ 53 : ℚ) / (2 ^ 53 : ℚ)) = ((1 : ℤ) : ℚ) by norm_num]
    rw [fl_int 1 (by norm_num) (by norm_num)]
    rw [show (((1 : ℤ)) : ℚ) = 1 by norm_num]
    rw [ceil_eval]
    norm_num
  · rw [Generator.required_trucks_spec, if_neg (by norm_num), ceil_eval]
    norm_num

/-! ### Claim C3 -/

/-- C3 (amended): the fleet-sizing variant (`generator.py`) guarantees
that the available truck count is at least the minimum required for the
sampled demands; the stock variant (`projet.py`) gives no such guarantee
(its truck count is the caller-supplied `n_trucks`, and the aggregate
capacity check is commented out) — see the counterexample. -/
theorem C3_fleet_size_guarantee (demands : List (ℤ × ℤ)) (C : ℤ) (d : String) :
    Generator.min_total_required demands C ≤ Generator.available_trucks demands C d := by
  simp only [Generator.available_trucks, Generator.n_trucks_of]
  generalize ⌈fl (fl ((Generator.min_total_required demands C : ℤ) : ℚ)
    * Generator.truck_margin d)⌉ = X
  omega

/-- C3 counterexample: a `projet.py` instance with one truck whose demands
need two trucks of the configured capacity (1 station demanding 100 of
each product, capacity 100): the claimed invariant fails for the stock
variant. -/
theorem C3_stock_variant_counterexample :
    (Projet.projGenerate
        { n_garages := 1, n_depots := 1, n_stations := 1, n_trucks := 1,
          truck_capacity := 100, zone_size := 1, min_d := 100, max_d := 100,
          stock_multiplier := 2, difficulty := "easy" }
        (fun _ => 1/2)).map
      (fun i => (i.trucks.length,
        i.stations.map fun s => (s.demand_essence, s.demand_gasoil)))
      = Except.ok (1, [((100 : ℤ), (100 : ℤ))]) ∧
    Generator.min_total_required [((100 : ℤ), (100 : ℤ))] 100 = 2 ∧
    ¬ (Generator.min_total_required [((100 : ℤ), (100 : ℤ))] 100 ≤ (1 : ℤ)) := by
  have h1 : Generator.calculate_required_trucks 100 100 = 1 := by
    rw [Generator.calculate_required_trucks, if_neg (by norm_num),
      float_ceil_div_exact 100 100 (by norm_num) (by norm_num) (by norm_num)
        (by norm_num), ceil_eval]
    norm_num
  have hm : Generator.min_total_required [((100 : ℤ), (100 : ℤ))] 100 = 2 := by
    simp [Generator.min_total_required, Generator.total_essence,
      Generator.total_gasoil, h1]
  refine ⟨?_, hm, by omega⟩
  norm_num [Projet.projGenerate, Projet.projGenerate', Projet.sampleCoords,
    Projet.sampleStationDemands, Projet.presenceDraw, Projet.sampleStocks,
    Projet.sampleTrucksFrom, Projet.mkGarages, Projet.mkStations,
    Projet.mkDepots, Projet.capacityOf, round2, uniformDraw, randintVal,
    choiceIdx, int_, round_eq, Except.map, List.range_succ, List.range_zero]

/-! ### Claim C4 -/

/-- C4 (amended): `generate_instance` of `projet.py` performs no input
validation at all: for any zone size (including non-positive ones), any
truck capacity (including non-positive ones) and any non-positive truck
count, generation runs to completion and returns an instance (here with
one garage/depot/station and a degenerate demand range, so that the run
cannot fail for unrelated reasons).  Malformed configurations are never
rejected up front; with `min_d > max_d` the only failure is a `ValueError`
raised from inside the sampler after coordinate sampling. -/
theorem C4_no_validation (zone : ℚ) (cap nT : ℤ) (mult : ℚ) (d : String)
    (g : ℕ → ℚ) (hg : ValidStream g) (hnT : nT ≤ 0) :
    (Projet.projGenerate
      { n_garages := 1, n_depots := 1, n_stations := 1, n_trucks := nT,
        truck_capacity := cap, zone_size := zone, min_d := 0, max_d := 0,
        stock_multiplier := mult, difficulty := d } g).isOk = true := by
  have hpres : ∀ th k, ∃ kf, k + 1 ≤ kf ∧
      Projet.presenceDraw g 0 0 th k = .ok (0, kf) := by
    intro th k
    by_cases h : th < g k
    · refine ⟨k + 2, by omega, ?_⟩
      rw [Projet.presenceDraw, if_pos h, if_pos le_rfl]
      have hfloor : ⌊g (k + 1) * (((0 : ℤ) : ℚ) - ((0 : ℤ) : ℚ) + 1)⌋ = 0 := by
        rw [show (((0 : ℤ) : ℚ) - ((0 : ℤ) : ℚ) + 1) = 1 by norm_num, mul_one,
          Int.floor_eq_zero_iff]
        exact ⟨(hg (k + 1)).1, (hg (k + 1)).2⟩
      rw [randintVal, hfloor]
      norm_num
    · exact ⟨k + 1, by omega, by rw [Projet.presenceDraw, if_neg h]⟩
  have hdem : ∀ k, ∃ kf, Projet.sampleStationDemands g 0 0 1 k
      = .ok ([((0 : ℤ), (0 : ℤ))], kf) := by
    intro k
    obtain ⟨k1, _, hk1⟩ := hpres (1/5) k
    obtain ⟨k2, _, hk2⟩ := hpres (3/10) k1
    refine ⟨k2, ?_⟩
    simp only [Projet.sampleStationDemands, hk1, hk2]
  have hstocks : ∀ b k, Projet.sampleStocks g (0 * b) (0 * b) 1 k
      = ([((0 : ℤ), (0 : ℤ))], k + 2) := by
    intro b k
    simp [Projet.sampleStocks, int_, uniformDraw]
  obtain ⟨kd, hkd⟩ := hdem 6
  have hT : nT.toNat = 0 := by omega
  simp only [Projet.projGenerate, Projet.projGenerate', Projet.sampleCoords,
    Int.toNat_one, hT]
  norm_num [hkd, Projet.sampleStocks, Projet.sampleTrucksFrom, int_,
    uniformDraw, Except.map, Except.isOk, Except.toBool]

/-- C4 witness: the amended theorem at the malformed configuration
`zone_size = -3`, `truck_capacity = 0`, `n_trucks = -2`, with the all-zero
draw stream. -/
theorem C4_no_validation_witness :
    (Projet.projGenerate
      { n_garages := 1, n_depots := 1, n_stations := 1, n_trucks := -2,
        truck_capacity := 0, zone_size := -3, min_d := 0, max_d := 0,
        stock_multiplier := 7, difficulty := "hard" }
      (fun _ => 0)).isOk = true :=
  C4_no_validation (-3) 0 (-2) 7 "hard" (fun _ => 0)
    (fun _ => ⟨le_rfl, by norm_num⟩) (by norm_num)

/-- C4 counterexample: the claim says malformed configurations (negative
count, non-positive capacity, non-positive zone) are rejected immediately
and no instance is ever returned; but `projet.py` happily returns a
complete instance for `n_trucks = -1`, `truck_capacity = -5`,
`zone_size = -1`. -/
theorem C4_malformed_config_counterexample :
    (Projet.projGenerate
      { n_garages := 1, n_depots := 1, n_stations := 1, n_trucks := -1,
        truck_capacity := -5, zone_size := -1, min_d := 0, max_d := 0,
        stock_multiplier := 2, difficulty := "easy" }
      (fun _ => 0)).isOk = true := by
  norm_num [Projet.projGenerate, Projet.projGenerate', Projet.sampleCoords,
    Projet.sampleStationDemands, Projet.presenceDraw, Projet.sampleStocks,
    Projet.sampleTrucksFrom, Projet.mkGarages, Projet.mkStations,
    Projet.mkDepots, Projet.capacityOf, round2, uniformDraw, randintVal,
    choiceIdx, int_, round_eq, Except.map, Except.isOk, Except.toBool]

/-! ### Claim C5 -/

/-- Lower bound for the stock loop: with every variation draw at least
`0.8`, each product's stock sum over `n` depots is more than
`n * (0.8 * base - 1)` (the `-1` accounts for `int()` truncation), and is
non-negative. -/
theorem stockSum_lower (g : ℕ → ℚ) (hg : ValidStream g) (baseE baseG : ℚ)
    (hE : 0 ≤ baseE) (hG : 0 ≤ baseG) : ∀ (n k : ℕ),
    (n : ℚ) * (baseE * (8/10) - 1)
        ≤ ((((Projet.sampleStocks g baseE baseG n k).1.map Prod.fst).sum : ℤ) : ℚ) ∧
    (n : ℚ) * (baseG * (8/10) - 1)
        ≤ ((((Projet.sampleStocks g baseE baseG n k).1.map Prod.snd).sum : ℤ) : ℚ) ∧
    (0 : ℚ) ≤ ((((Projet.sampleStocks g baseE baseG n k).1.map Prod.fst).sum : ℤ) : ℚ) ∧
    (0 : ℚ) ≤ ((((Projet.sampleStocks g baseE baseG n k).1.map Prod.snd).sum : ℤ) : ℚ)
  | 0, k => by simp [Projet.sampleStocks]
  | n + 1, k => by
    obtain ⟨ih1, ih2, ih3, ih4⟩ := stockSum_lower g hg baseE baseG hE hG n (k + 2)
    have hu : ∀ m, (8/10 : ℚ) ≤ uniformDraw (8/10) (12/10) (g m)
        ∧ uniformDraw (8/10) (12/10) (g m) ≤ 12/10 := by
      intro m
      have h1 := (hg m).1
      have h2 := (hg m).2
      constructor <;> rw [uniformDraw] <;> nlinarith [h1, h2]
    have hbound : ∀ (b : ℚ), 0 ≤ b → ∀ m,
        b * (8/10) - 1 ≤ ((int_ (b * uniformDraw (8/10) (12/10) (g m)) : ℤ) : ℚ)
        ∧ (0 : ℚ) ≤ ((int_ (b * uniformDraw (8/10) (12/10) (g m)) : ℤ) : ℚ) := by
      intro b hb m
      have humem := hu m
      have hprod : b * (8/10) ≤ b * uniformDraw (8/10) (12/10) (g m) :=
        mul_le_mul_of_nonneg_left humem.1 hb
      have hprod0 : (0 : ℚ) ≤ b * uniformDraw (8/10) (12/10) (g m) := by nlinarith
      have hint : int_ (b * uniformDraw (8/10) (12/10) (g m))
          = ⌊b * uniformDraw (8/10) (12/10) (g m)⌋ := by
        rw [int_, if_pos hprod0]
      rw [hint]
      have hfl1 := Int.sub_one_lt_floor (b * uniformDraw (8/10) (12/10) (g m))
      have hfl0 : (0 : ℤ) ≤ ⌊b * uniformDraw (8/10) (12/10) (g m)⌋ :=
        Int.floor_nonneg.mpr hprod0
      constructor
      · have : ((⌊b * uniformDraw (8/10) (12/10) (g m)⌋ : ℤ) : ℚ)
            > b * uniformDraw (8/10) (12/10) (g m) - 1 := hfl1
        linarith
      · exact_mod_cast hfl0
    simp only [Projet.sampleStocks, List.map_cons, List.sum_cons]
    have hbE := hbound baseE hE k
    have hbG := hbound baseG hG (k + 1)
    push_cast at ih1 ih2 ih3 ih4 hbE hbG ⊢
    refine ⟨by linarith, by linarith, by linarith, by linarith⟩

/-- C5 (amended): the depot stocks cover total demand whenever
`(0.8 * stock_multiplier - 1) * total_demand_p ≥ n_depots` for each
product (or that product's demand is zero) — e.g. the default multiplier
2.0 with demand at least `2 * n_depots`.  For `stock_multiplier > 1`
merely, the feasibility assertion can fail; see the counterexample. -/
theorem C5_stock_feasibility (g : ℕ → ℚ) (hg : ValidStream g)
    (mult totE totG : ℚ) (nD : ℕ) (k : ℕ) (hnD : 1 ≤ nD)
    (hE : 0 ≤ totE) (hG : 0 ≤ totG) (hm : 0 ≤ mult)
    (hcE : (nD : ℚ) ≤ (8/10 * mult - 1) * totE ∨ totE = 0)
    (hcG : (nD : ℚ) ≤ (8/10 * mult - 1) * totG ∨ totG = 0) :
    totE ≤ ((((Projet.sampleStocks g (totE * mult / (nD : ℚ))
          (totG * mult / (nD : ℚ)) nD k).1.map Prod.fst).sum : ℤ) : ℚ) ∧
    totG ≤ ((((Projet.sampleStocks g (totE * mult / (nD : ℚ))
          (totG * mult / (nD : ℚ)) nD k).1.map Prod.snd).sum : ℤ) : ℚ) := by
  have hnDq : (0 : ℚ) < (nD : ℚ) := by exact_mod_cast hnD
  have hbE : 0 ≤ totE * mult / (nD : ℚ) := by positivity
  have hbG : 0 ≤ totG * mult / (nD : ℚ) := by positivity
  obtain ⟨h1, h2, h3, h4⟩ := stockSum_lower g hg _ _ hbE hbG nD k
  have hkey : ∀ (tot : ℚ), 0 ≤ tot →
      ((nD : ℚ) ≤ (8/10 * mult - 1) * tot ∨ tot = 0) →
      ∀ (s : ℚ), (nD : ℚ) * (tot * mult / (nD : ℚ) * (8/10) - 1) ≤ s →
      (0 : ℚ) ≤ s → tot ≤ s := by
    intro tot htot hc s hs hs0
    rcases hc with hc | hc
    · have hcancel : (nD : ℚ) * (tot * mult / (nD : ℚ) * (8/10) - 1)
          = tot * mult * (8/10) - nD := by
        field_simp
        ring
      rw [hcancel] at hs
      nlinarith
    · rw [hc] at *
      linarith
  exact ⟨hkey totE hE hcE _ h1 h3, hkey totG hG hcG _ h2 h4⟩

/-- C5 witness: the amended theorem at multiplier 2, essence demand 100,
one depot, with the all-zero draw stream. -/
theorem C5_stock_feasibility_witness :
    (100 : ℚ) ≤ ((((Projet.sampleStocks (fun _ => 0) ((100 : ℚ) * 2 / ((1 : ℕ) : ℚ))
        ((0 : ℚ) * 2 / ((1 : ℕ) : ℚ)) 1 0).1.map Prod.fst).sum : ℤ) : ℚ) :=
  (C5_stock_feasibility (fun _ => 0) (fun _ => ⟨le_rfl, by norm_num⟩)
    2 100 0 1 0 le_rfl (by norm_num) le_rfl (by norm_num)
    (Or.inl (by norm_num)) (Or.inr rfl)).1

/-- C5 counterexample: with `stock_multiplier = 1.1 > 1`, one depot, one
station demanding 100 of each product and the variation draws at the lower
end `0.8`, each stock is `int(110 * 0.8) = 88 < 100` and the feasibility
assertion of `_verify_feasibility` fails. -/
theorem C5_assertion_counterexample :
    Projet.projGenerate
      { n_garages := 1, n_depots := 1, n_stations := 1, n_trucks := 1,
        truck_capacity := 100, zone_size := 1, min_d := 100, max_d := 100,
        stock_multiplier := 11/10, difficulty := "easy" }
      (fun n => if n ≤ 9 then 1/2 else 0) = .error .assertionError := by
  norm_num [Projet.projGenerate, Projet.projGenerate', Projet.sampleCoords,
    Projet.sampleStationDemands, Projet.presenceDraw, Projet.sampleStocks,
    Projet.sampleTrucksFrom, Projet.mkGarages, Projet.capacityOf,
    round2, uniformDraw, randintVal, choiceIdx, int_, round_eq, Except.map]


/-! ### Claim C6 -/

theorem euclidean_distance_eq_dist (p q : ℚ × ℚ) :
    Projet.euclidean_distance p q = dist (Projet.pointR p) (Projet.pointR q) := by
  rw [EuclideanSpace.dist_eq]
  unfold Projet.euclidean_distance Projet.pointR
  congr 1
  rw [Fin.sum_univ_two]
  simp [Real.dist_eq, sq_abs]

theorem euclidean_distance_comm (p q : ℚ × ℚ) :
    Projet.euclidean_distance p q = Projet.euclidean_distance q p := by
  rw [euclidean_distance_eq_dist, euclidean_distance_eq_dist, dist_comm]

theorem euclidean_distance_self (p : ℚ × ℚ) :
    Projet.euclidean_distance p p = 0 := by
  rw [euclidean_distance_eq_dist, dist_self]

theorem euclidean_distance_triangle (a b c : ℚ × ℚ) :
    Projet.euclidean_distance a c
      ≤ Projet.euclidean_distance a b + Projet.euclidean_distance b c := by
  rw [euclidean_distance_eq_dist, euclidean_distance_eq_dist,
    euclidean_distance_eq_dist]
  exact dist_triangle _ _ _

theorem round2R_zero : Projet.round2R 0 = 0 := by
  simp [Projet.round2R]

theorem abs_round2R_sub (x : ℝ) : |Projet.round2R x - x| ≤ 1 / 200 := by
  have h := abs_sub_round (x * 100)
  rw [abs_sub_comm] at h
  rw [Projet.round2R]
  have hiden : ((round (x * 100) : ℤ) : ℝ) / 100 - x
      = (((round (x * 100) : ℤ) : ℝ) - x * 100) / 100 := by ring
  rw [hiden, abs_div, abs_of_pos (by norm_num : (0 : ℝ) < 100)]
  linarith

theorem compute_distance_matrix_entry (coords : List (ℚ × ℚ)) (i j : ℕ) :
    Projet.compute_distance_matrix coords i j
      = Projet.round2R (Projet.euclidean_distance
          (coords.getD i (0, 0)) (coords.getD j (0, 0))) := by
  rw [Projet.compute_distance_matrix]
  rcases lt_trichotomy i j with h | h | h
  · rw [if_neg (by omega), if_pos h]
  · subst h
    rw [if_pos rfl, euclidean_distance_self, round2R_zero]
  · rw [if_neg (by omega), if_neg (by omega), euclidean_distance_comm]

/-- C6: every entry of the distance matrix is the Euclidean distance of
the two sites' coordinates rounded to 2 decimals; the matrix is symmetric
with zero diagonal; two sites at identical coordinates are at distance
exactly 0; and the triangle inequality holds up to the 2-decimal rounding
tolerance (`3/200`). -/
theorem C6_distance_matrix_properties (coords : List (ℚ × ℚ)) (i j k : ℕ) :
    Projet.compute_distance_matrix coords i j
      = Projet.round2R (Projet.euclidean_distance
          (coords.getD i (0, 0)) (coords.getD j (0, 0))) ∧
    Projet.compute_distance_matrix coords i j
      = Projet.compute_distance_matrix coords j i ∧
    Projet.compute_distance_matrix coords i i = 0 ∧
    (coords.getD i (0, 0) = coords.getD j (0, 0) →
      Projet.compute_distance_matrix coords i j = 0) ∧
    Projet.compute_distance_matrix coords i k
      ≤ Projet.compute_distance_matrix coords i j
        + Projet.compute_distance_matrix coords j k + 3 / 200 := by
  refine ⟨compute_distance_matrix_entry coords i j, ?_, ?_, ?_, ?_⟩
  · rw [compute_distance_matrix_entry, compute_distance_matrix_entry,
      euclidean_distance_comm]
  · rw [compute_distance_matrix_entry, euclidean_distance_self, round2R_zero]
  · intro h
    rw [compute_distance_matrix_entry, h, euclidean_distance_self, round2R_zero]
  · rw [compute_distance_matrix_entry coords i k,
      compute_distance_matrix_entry coords i j,
      compute_distance_matrix_entry coords j k]
    have ht := euclidean_distance_triangle (coords.getD i (0, 0))
      (coords.getD j (0, 0)) (coords.getD k (0, 0))
    have h1 := abs_le.mp (abs_round2R_sub (Projet.euclidean_distance
      (coords.getD i (0, 0)) (coords.getD k (0, 0))))
    have h2 := abs_le.mp (abs_round2R_sub (Projet.euclidean_distance
      (coords.getD i (0, 0)) (coords.getD j (0, 0))))
    have h3 := abs_le.mp (abs_round2R_sub (Projet.euclidean_distance
      (coords.getD j (0, 0)) (coords.getD k (0, 0))))
    linarith [h1.1, h1.2, h2.1, h2.2, h3.1, h3.2]


/-! ### Claim C9 -/

theorem randintVal_mem (a b : ℤ) (r : ℚ) (hab : a ≤ b) (h0 : 0 ≤ r)
    (h1 : r < 1) : a ≤ randintVal a b r ∧ randintVal a b r ≤ b := by
  rw [randintVal]
  have habq : (a : ℚ) ≤ (b : ℚ) := by exact_mod_cast hab
  have hL : (0 : ℚ) < (b : ℚ) - a + 1 := by linarith
  have hnonneg : (0 : ℚ) ≤ r * ((b : ℚ) - a + 1) := mul_nonneg h0 (le_of_lt hL)
  have hflo0 : 0 ≤ ⌊r * ((b : ℚ) - a + 1)⌋ := Int.floor_nonneg.mpr hnonneg
  have hlt : r * ((b : ℚ) - a + 1) < ((b - a + 1 : ℤ) : ℚ) := by
    push_cast
    nlinarith
  have hfl : ⌊r * ((b : ℚ) - a + 1)⌋ < b - a + 1 := Int.floor_lt.mpr hlt
  omega

theorem generate_demands_mem (g : ℕ → ℚ) (hg : ValidStream g) (minD maxD : ℤ)
    (hab : minD ≤ maxD) : ∀ (n k : ℕ) (l : List (ℤ × ℤ)) (kf : ℕ),
    Generator.generate_demands g minD maxD n k = .ok (l, kf) →
    ∀ p ∈ l, (minD ≤ p.1 ∧ p.1 ≤ maxD) ∧ (minD ≤ p.2 ∧ p.2 ≤ maxD)
  | 0, k, l, kf => by
    intro h p hp
    simp [Generator.generate_demands] at h
    rw [h.1] at hp
    simp at hp
  | n + 1, k, l, kf => by
    intro h p hp
    rw [Generator.generate_demands, if_pos hab] at h
    rcases hrec : Generator.generate_demands g minD maxD n (k + 2) with e | rk
    · rw [hrec] at h
      exact absurd h (by simp)
    · obtain ⟨rest, k'⟩ := rk
      simp only [hrec, Except.ok.injEq, Prod.mk.injEq] at h
      rw [← h.1] at hp
      rcases List.mem_cons.mp hp with hp | hp
      · subst hp
        exact ⟨randintVal_mem _ _ _ hab (hg k).1 (hg k).2,
          randintVal_mem _ _ _ hab (hg (k + 1)).1 (hg (k + 1)).2⟩
      · exact generate_demands_mem g hg minD maxD hab n (k + 2) rest k' hrec p hp

theorem presenceDraw_mem (g : ℕ → ℚ) (hg : ValidStream g) (minD maxD : ℤ)
    (th : ℚ) (k : ℕ) (v : ℤ) (kf : ℕ) (hab : minD ≤ maxD)
    (h : Projet.presenceDraw g minD maxD th k = .ok (v, kf)) :
    v = 0 ∨ (minD ≤ v ∧ v ≤ maxD) := by
  rw [Projet.presenceDraw] at h
  by_cases hth : th < g k
  · rw [if_pos hth, if_pos hab] at h
    simp only [Except.ok.injEq, Prod.mk.injEq] at h
    right
    rw [← h.1]
    exact randintVal_mem _ _ _ hab (hg (k + 1)).1 (hg (k + 1)).2
  · rw [if_neg hth] at h
    simp only [Except.ok.injEq, Prod.mk.injEq] at h
    left
    exact h.1.symm

theorem sampleStationDemands_mem (g : ℕ → ℚ) (hg : ValidStream g)
    (minD maxD : ℤ) (hab : minD ≤ maxD) : ∀ (n k : ℕ) (l : List (ℤ × ℤ)) (kf : ℕ),
    Projet.sampleStationDemands g minD maxD n k = .ok (l, kf) →
    ∀ p ∈ l, (p.1 = 0 ∨ (minD ≤ p.1 ∧ p.1 ≤ maxD))
      ∧ (p.2 = 0 ∨ (minD ≤ p.2 ∧ p.2 ≤ maxD))
  | 0, k, l, kf => by
    intro h p hp
    simp [Projet.sampleStationDemands] at h
    rw [h.1] at hp
    simp at hp
  | n + 1, k, l, kf => by
    intro h p hp
    rw [Projet.sampleStationDemands] at h
    rcases h1 : Projet.presenceDraw g minD maxD (1/5) k with e | d1
    · simp only [h1] at h
      exact absurd h (by simp)
    · obtain ⟨de, k1⟩ := d1
      simp only [h1] at h
      rcases h2 : Projet.presenceDraw g minD maxD (3/10) k1 with e | d2
      · simp only [h2] at h
        exact absurd h (by simp)
      · obtain ⟨dg, k2⟩ := d2
        simp only [h2] at h
        rcases hrec : Projet.sampleStationDemands g minD maxD n k2 with e | rk
        · simp only [hrec] at h
          exact absurd h (by simp)
        · obtain ⟨rest, k'⟩ := rk
          simp only [hrec, Except.ok.injEq, Prod.mk.injEq] at h
          rw [← h.1] at hp
          rcases List.mem_cons.mp hp with hp | hp
          · subst hp
            exact ⟨presenceDraw_mem g hg minD maxD (1/5) k de k1 hab h1,
              presenceDraw_mem g hg minD maxD (3/10) k1 dg k2 hab h2⟩
          · exact sampleStationDemands_mem g hg minD maxD hab n k2 rest k' hrec p hp

/-- C9: with a valid demand range, under the always-both policy of
`generator.py` every sampled per-station demand for each product is an
integer in `[min_d, max_d]` (so for Example 1's range `(2000, 5000)` every
demand lies in `[2000, 5000]`); under the probabilistic-absence policy of
`projet.py` each per-product demand is either `0` or an integer in
`[min_d, max_d]`. -/
theorem C9_demand_ranges (g : ℕ → ℚ) (hg : ValidStream g) (minD maxD : ℤ)
    (hab : minD ≤ maxD) (n k : ℕ) :
    (∀ l kf, Generator.generate_demands g minD maxD n k = .ok (l, kf) →
      ∀ p ∈ l, (minD ≤ p.1 ∧ p.1 ≤ maxD) ∧ (minD ≤ p.2 ∧ p.2 ≤ maxD)) ∧
    (∀ l kf, Projet.sampleStationDemands g minD maxD n k = .ok (l, kf) →
      ∀ p ∈ l, (p.1 = 0 ∨ (minD ≤ p.1 ∧ p.1 ≤ maxD))
        ∧ (p.2 = 0 ∨ (minD ≤ p.2 ∧ p.2 ≤ maxD))) :=
  ⟨fun l kf h => generate_demands_mem g hg minD maxD hab n k l kf h,
   fun l kf h => sampleStationDemands_mem g hg minD maxD hab n k l kf h⟩

/-- C9 witness: with the constant draw `1/2` and Example 1's demand range
`(2000, 5000)`, the sampled demand is `2000 + ⌊3001/2⌋ = 3500`, inside the
range. -/
theorem C9_demand_ranges_witness :
    ((2000 : ℤ) ≤ 3500 ∧ (3500 : ℤ) ≤ 5000) ∧
    ((2000 : ℤ) ≤ 3500 ∧ (3500 : ℤ) ≤ 5000) :=
  (C9_demand_ranges (fun _ => 1/2) (fun _ => ⟨by norm_num, by norm_num⟩)
      2000 5000 (by norm_num) 1 0).1 [((3500 : ℤ), (3500 : ℤ))] 2
    (by norm_num [Generator.generate_demands, randintVal])
    ((3500 : ℤ), (3500 : ℤ)) (by simp)

/-! ### Claim C10 -/

theorem sampleTrucksFrom_capacity (g : ℕ → ℚ) (hg : ValidStream g)
    (garages : List Projet.Site) (d : String) (C : ℤ) :
    ∀ (i n k : ℕ) (ts : List Projet.Truck) (kf : ℕ),
    Projet.sampleTrucksFrom g garages d C i n k = .ok (ts, kf) →
    ∀ t ∈ ts, ∃ r : ℚ, 0 ≤ r ∧ r < 1 ∧ t.capacity = Projet.capacityOf d C r
  | i, 0, k, ts, kf => by
    intro h t ht
    simp [Projet.sampleTrucksFrom] at h
    rw [h.1] at ht
    simp at ht
  | i, n + 1, k, ts, kf => by
    intro h t ht
    rw [Projet.sampleTrucksFrom] at h
    rcases hgar : garages.get? (choiceIdx garages.length (g k)) with _ | gar
    · simp only [hgar] at h
      exact absurd h (by simp)
    · simp only [hgar] at h
      rcases hrec : Projet.sampleTrucksFrom g garages d C (i + 1) n (k + 2) with e | rk
      · simp only [hrec] at h
        exact absurd h (by simp)
      · obtain ⟨rest, k'⟩ := rk
        simp only [hrec, Except.ok.injEq, Prod.mk.injEq] at h
        rw [← h.1] at ht
        rcases List.mem_cons.mp ht with ht | ht
        · subst ht
          exact ⟨g (k + 1), (hg (k + 1)).1, (hg (k + 1)).2, rfl⟩
        · exact sampleTrucksFrom_capacity g hg garages d C (i + 1) n (k + 2)
            rest k' hrec t ht

theorem capacityOf_easy_ge (C : ℤ) (hC : 0 < C) (r : ℚ) (h0 : 0 ≤ r) :
    C ≤ Projet.capacityOf "easy" C r := by
  rw [Projet.capacityOf, if_pos rfl]
  have hu : (1 : ℚ) ≤ uniformDraw 1 (12/10) r := by
    rw [uniformDraw]
    nlinarith
  have hCq : (0 : ℚ) ≤ (C : ℚ) := by exact_mod_cast le_of_lt hC
  have hprod : (C : ℚ) ≤ (C : ℚ) * uniformDraw 1 (12/10) r := by nlinarith
  have hpos : (0 : ℚ) ≤ (C : ℚ) * uniformDraw 1 (12/10) r := by linarith
  rw [int_, if_pos hpos]
  exact Int.le_floor.mpr hprod

theorem capacityOf_hard_bounds (C : ℤ) (hC : 0 < C) (r : ℚ) (h0 : 0 ≤ r)
    (h1 : r < 1) :
    Projet.capacityOf "hard" C r ≤ C ∧
    int_ ((C : ℚ) * (7/10)) ≤ Projet.capacityOf "hard" C r := by
  rw [Projet.capacityOf, if_neg (by decide), if_neg (by decide)]
  have hul : (7/10 : ℚ) ≤ uniformDraw (7/10) 1 r := by
    rw [uniformDraw]
    nlinarith
  have huh : uniformDraw (7/10) 1 r ≤ 1 := by
    rw [uniformDraw]
    nlinarith
  have hCq : (0 : ℚ) ≤ (C : ℚ) := by exact_mod_cast le_of_lt hC
  have hpos : (0 : ℚ) ≤ (C : ℚ) * uniformDraw (7/10) 1 r := by nlinarith
  have hpos7 : (0 : ℚ) ≤ (C : ℚ) * (7/10) := by nlinarith
  rw [int_, if_pos hpos, int_, if_pos hpos7]
  constructor
  · have hle : (C : ℚ) * uniformDraw (7/10) 1 r ≤ ((C : ℤ) : ℚ) := by nlinarith
    have := Int.floor_le_floor hle
    rwa [Int.floor_intCast] at this
  · exact Int.floor_le_floor (by nlinarith)

theorem capacityOf_hard_attains (C : ℤ) :
    Projet.capacityOf "hard" C 0 = int_ ((C : ℚ) * (7/10)) := by
  rw [Projet.capacityOf, if_neg (by decide), if_neg (by decide)]
  congr 1
  rw [uniformDraw]
  ring

/-- C10: in the stock variant every truck's capacity is `int(C * u)` with
`u = uniform(1.0, 1.2)` for easy, `uniform(0.9, 1.1)` for medium and
`uniform(0.7, 1.0)` for hard; the draw `u` stays within those intervals;
for easy every capacity is at least the configured `C`, for hard every
capacity is at most `C` and at least `int(0.7 * C)`, the latter attained
at the zero draw. -/
theorem C10_truck_capacity_variation (g : ℕ → ℚ) (hg : ValidStream g)
    (garages : List Projet.Site) (C : ℤ) (hC : 0 < C) (d : String)
    (i n k : ℕ) (ts : List Projet.Truck) (kf : ℕ)
    (h : Projet.sampleTrucksFrom g garages d C i n k = .ok (ts, kf)) :
    (∀ t ∈ ts, ∃ r : ℚ, 0 ≤ r ∧ r < 1 ∧ t.capacity = Projet.capacityOf d C r) ∧
    (∀ r : ℚ, 0 ≤ r → r < 1 →
      (1 ≤ uniformDraw 1 (12/10) r ∧ uniformDraw 1 (12/10) r ≤ 12/10) ∧
      (9/10 ≤ uniformDraw (9/10) (11/10) r ∧ uniformDraw (9/10) (11/10) r ≤ 11/10) ∧
      (7/10 ≤ uniformDraw (7/10) 1 r ∧ uniformDraw (7/10) 1 r ≤ 1)) ∧
    (d = "easy" → ∀ t ∈ ts, C ≤ t.capacity) ∧
    (d = "hard" → ∀ t ∈ ts, t.capacity ≤ C ∧
      int_ ((C : ℚ) * (7/10)) ≤ t.capacity) ∧
    Projet.capacityOf "hard" C 0 = int_ ((C : ℚ) * (7/10)) := by
  have hmem := sampleTrucksFrom_capacity g hg garages d C i n k ts kf h
  refine ⟨hmem, ?_, ?_, ?_, capacityOf_hard_attains C⟩
  · intro r h0 h1
    refine ⟨⟨?_, ?_⟩, ⟨?_, ?_⟩, ⟨?_, ?_⟩⟩ <;> rw [uniformDraw] <;> nlinarith
  · intro hd t ht
    obtain ⟨r, hr0, hr1, hcap⟩ := hmem t ht
    rw [hcap, hd]
    exact capacityOf_easy_ge C hC r hr0
  · intro hd t ht
    obtain ⟨r, hr0, hr1, hcap⟩ := hmem t ht
    rw [hcap, hd]
    exact capacityOf_hard_bounds C hC r hr0 hr1

/-- C10 witness: one hard-difficulty truck drawn with the all-zero stream
from a single garage, capacity `int(100 * 0.7) = 70`: at most the
configured 100 and exactly 70% of it. -/
theorem C10_truck_capacity_variation_witness :
    ({ id := "T1", home_garage := "G1", capacity := 70 } : Projet.Truck).capacity
        ≤ 100 ∧
    int_ ((100 : ℚ) * (7/10))
      ≤ ({ id := "T1", home_garage := "G1", capacity := 70 } : Projet.Truck).capacity :=
  (C10_truck_capacity_variation (fun _ => 0) (fun _ => ⟨le_rfl, by norm_num⟩)
      [{ id := "G1", name := "Garage_1", x := 0, y := 0, index := 0 }]
      100 (by norm_num) "hard" 0 1 0
      [{ id := "T1", home_garage := "G1", capacity := 70 }] 2
      (by
        norm_num [Projet.sampleTrucksFrom, Projet.capacityOf, choiceIdx,
          uniformDraw, int_]
        exact ⟨by decide, by decide⟩)).2.2.2.1 rfl
    { id := "T1", home_garage := "G1", capacity := 70 } (by simp)


/-! ### Claim C7 -/

theorem mkGarages_map_index (coords : List (ℚ × ℚ)) (n : ℕ) :
    (Projet.mkGarages coords n).map Projet.Site.index
      = (List.range n).map (fun (i : ℕ) => (i : ℤ)) := by
  rw [Projet.mkGarages, List.map_map]
  rfl

theorem mkGarages_map_id (coords : List (ℚ × ℚ)) (n : ℕ) :
    (Projet.mkGarages coords n).map Projet.Site.id
      = (List.range n).map (fun i => "G" ++ toString (i + 1)) := by
  rw [Projet.mkGarages, List.map_map]
  rfl

theorem mkDepots_map_index (coords : List (ℚ × ℚ)) (stocks : List (ℤ × ℤ))
    (nGar : ℤ) (n : ℕ) :
    (Projet.mkDepots coords stocks nGar n).map Projet.Depot.index
      = (List.range n).map (fun (i : ℕ) => nGar + (i : ℤ)) := by
  rw [Projet.mkDepots, List.map_map]
  rfl

theorem mkDepots_map_id (coords : List (ℚ × ℚ)) (stocks : List (ℤ × ℤ))
    (nGar : ℤ) (n : ℕ) :
    (Projet.mkDepots coords stocks nGar n).map Projet.Depot.id
      = (List.range n).map (fun i => "D" ++ toString (i + 1)) := by
  rw [Projet.mkDepots, List.map_map]
  rfl

theorem mkStations_map_index (coords : List (ℚ × ℚ)) (demands : List (ℤ × ℤ))
    (nGar nDep : ℤ) (n : ℕ) :
    (Projet.mkStations coords demands nGar nDep n).map Projet.Station.index
      = (List.range n).map (fun (i : ℕ) => nGar + nDep + (i : ℤ)) := by
  rw [Projet.mkStations, List.map_map]
  rfl

theorem mkStations_map_id (coords : List (ℚ × ℚ)) (demands : List (ℤ × ℤ))
    (nGar nDep : ℤ) (n : ℕ) :
    (Projet.mkStations coords demands nGar nDep n).map Projet.Station.id
      = (List.range n).map (fun i => "S" ++ toString (i + 1)) := by
  rw [Projet.mkStations, List.map_map]
  rfl

theorem sampleTrucksFrom_ids (g : ℕ → ℚ) (garages : List Projet.Site)
    (d : String) (C : ℤ) : ∀ (n i k : ℕ) (ts : List Projet.Truck) (kf : ℕ),
    Projet.sampleTrucksFrom g garages d C i n k = .ok (ts, kf) →
    ts.map Projet.Truck.id
      = (List.range n).map (fun j => "T" ++ toString (i + j + 1))
  | 0, i, k, ts, kf => by
    intro h
    simp [Projet.sampleTrucksFrom] at h
    rw [h.1]
    simp
  | n + 1, i, k, ts, kf => by
    intro h
    rw [Projet.sampleTrucksFrom] at h
    rcases hgar : garages.get? (choiceIdx garages.length (g k)) with _ | gar
    · simp only [hgar] at h
      exact absurd h (by simp)
    · simp only [hgar] at h
      rcases hrec : Projet.sampleTrucksFrom g garages d C (i + 1) n (k + 2) with e | rk
      · simp only [hrec] at h
        exact absurd h (by simp)
      · obtain ⟨rest, k'⟩ := rk
        simp only [hrec, Except.ok.injEq, Prod.mk.injEq] at h
        rw [← h.1]
        simp only [List.map_cons]
        rw [sampleTrucksFrom_ids g garages d C n (i + 1) (k + 2) rest k' hrec]
        rw [List.range_succ_eq_map]
        simp only [List.map_cons, List.map_map]
        congr 1
        apply List.map_congr_left
        intro a ha
        simp only [Function.comp_apply, Nat.succ_eq_add_one]
        rw [show i + 1 + a + 1 = i + (a + 1) + 1 from by omega]

/-- C7: in every generated instance, garage `k` has index `k`, depot `k`
has index `n_garages + k`, station `k` has index
`n_garages + n_depots + k`; the concatenated index lists are exactly
`0 .. n_sites - 1` in order garages, depots, stations; and identifiers are
allocated in creation order `G1, G2, …`, `D1, …`, `S1, …`, `T1, …`. -/
theorem C7_index_and_id_integrity (cfg : Projet.Cfg) (g : ℕ → ℚ)
    (inst : Projet.Instance) (h : Projet.projGenerate cfg g = Except.ok inst)
    (hG : 0 ≤ cfg.n_garages) (hD : 0 ≤ cfg.n_depots) :
    inst.garages.map Projet.Site.index ++ inst.depots.map Projet.Depot.index
        ++ inst.stations.map Projet.Station.index
      = (List.range (cfg.n_garages.toNat + cfg.n_depots.toNat
          + cfg.n_stations.toNat)).map (fun (i : ℕ) => (i : ℤ)) ∧
    inst.garages.map Projet.Site.index
      = (List.range cfg.n_garages.toNat).map (fun (i : ℕ) => (i : ℤ)) ∧
    inst.depots.map Projet.Depot.index
      = (List.range cfg.n_depots.toNat).map (fun (i : ℕ) => cfg.n_garages + (i : ℤ)) ∧
    inst.stations.map Projet.Station.index
      = (List.range cfg.n_stations.toNat).map
          (fun (i : ℕ) => cfg.n_garages + cfg.n_depots + (i : ℤ)) ∧
    inst.garages.map Projet.Site.id
      = (List.range cfg.n_garages.toNat).map (fun i => "G" ++ toString (i + 1)) ∧
    inst.depots.map Projet.Depot.id
      = (List.range cfg.n_depots.toNat).map (fun i => "D" ++ toString (i + 1)) ∧
    inst.stations.map Projet.Station.id
      = (List.range cfg.n_stations.toNat).map (fun i => "S" ++ toString (i + 1)) ∧
    inst.trucks.map Projet.Truck.id
      = (List.range cfg.n_trucks.toNat).map (fun i => "T" ++ toString (i + 1)) := by
  rw [Projet.projGenerate] at h
  rcases hpg : Projet.projGenerate' cfg g with e | p
  · rw [hpg] at h
    simp [Except.map] at h
  · obtain ⟨inst', kf⟩ := p
    rw [hpg] at h
    simp only [Except.map, Except.ok.injEq] at h
    subst h
    simp only [Projet.projGenerate'] at hpg
    split at hpg
    · exact absurd hpg (by simp)
    · rename_i td hdem
      split at hpg
      · exact absurd hpg (by simp)
      · rename_i tk htk
        split at hpg
        · exact absurd hpg (by simp)
        · split at hpg
          · exact absurd hpg (by simp)
          · split at hpg
            · exact absurd hpg (by simp)
            · obtain ⟨nt, gar, dep, sta, tru, tde, tdg, tse, tsg⟩ := inst'
              simp only [Except.ok.injEq, Prod.mk.injEq,
                Projet.Instance.mk.injEq] at hpg
              obtain ⟨⟨hnt, hgar, hdep, hsta, htru, _, _, _, _⟩, hkf⟩ := hpg
              subst hnt hgar hdep hsta htru
              simp only
              have hids := sampleTrucksFrom_ids g _ cfg.difficulty
                cfg.truck_capacity cfg.n_trucks.toNat 0 _ _ _ htk
              refine ⟨?_, mkGarages_map_index _ _, mkDepots_map_index _ _ _ _,
                mkStations_map_index _ _ _ _ _, mkGarages_map_id _ _,
                mkDepots_map_id _ _ _ _, mkStations_map_id _ _ _ _ _, ?_⟩
              · rw [mkGarages_map_index, mkDepots_map_index, mkStations_map_index]
                rw [List.range_add, List.range_add]
                simp only [List.map_append, List.map_map]
                congr 1
                · congr 1
                  apply List.map_congr_left
                  intro a _
                  simp only [Function.comp_apply]
                  push_cast [Int.toNat_of_nonneg hG]
                  ring
                · apply List.map_congr_left
                  intro a _
                  simp only [Function.comp_apply]
                  push_cast [Int.toNat_of_nonneg hG, Int.toNat_of_nonneg hD]
                  ring
              · rw [hids]
                apply List.map_congr_left
                intro a _
                simp


/-- C7 witness: the theorem applied to a concrete generated instance
(one garage, depot and station, zero trucks, all-zero draw stream). -/
theorem C7_index_and_id_integrity_witness :
    [({ id := "G1", name := "Garage_1", x := 0, y := 0, index := 0 } :
        Projet.Site)].map Projet.Site.index
      = (List.range (Int.toNat 1)).map (fun (i : ℕ) => (i : ℤ)) :=
  (C7_index_and_id_integrity
    { n_garages := 1, n_depots := 1, n_stations := 1, n_trucks := 0,
      truck_capacity := 100, zone_size := 1, min_d := 0, max_d := 0,
      stock_multiplier := 2, difficulty := "easy" }
    (fun _ => 0)
    { n_trucks := 0,
      garages := [{ id := "G1", name := "Garage_1", x := 0, y := 0, index := 0 }],
      depots := [{ id := "D1", name := "Depot_1", x := 0, y := 0, index := 1,
                   stock_essence := 0, stock_gasoil := 0 }],
      stations := [{ id := "S1", name := "Station_1", x := 0, y := 0, index := 2,
                     demand_essence := 0, demand_gasoil := 0 }],
      trucks := [],
      total_demand_essence := 0, total_demand_gasoil := 0,
      total_stock_essence := 0, total_stock_gasoil := 0 }
    (by
      norm_num [Projet.projGenerate, Projet.projGenerate', Projet.sampleCoords,
        Projet.sampleStationDemands, Projet.presenceDraw, Projet.sampleStocks,
        Projet.sampleTrucksFrom, Projet.mkGarages, Projet.mkStations,
        Projet.mkDepots, round2, uniformDraw, randintVal, choiceIdx, int_,
        round_eq, Except.map, List.range_succ, List.range_zero]
      decide)
    (by norm_num) (by norm_num)).2.1


/-! ### Claim C8 -/

theorem sampleCoords_snd (g : ℕ → ℚ) (zone : ℚ) : ∀ (n k : ℕ),
    (Projet.sampleCoords g zone n k).2 = k + 2 * n
  | 0, k => rfl
  | n + 1, k => by
    simp only [Projet.sampleCoords, sampleCoords_snd g zone n (k + 2)]
    omega

theorem sampleCoords_congr (g₁ g₂ : ℕ → ℚ) (zone : ℚ) : ∀ (n k : ℕ),
    (∀ m, k ≤ m → m < k + 2 * n → g₁ m = g₂ m) →
    Projet.sampleCoords g₁ zone n k = Projet.sampleCoords g₂ zone n k
  | 0, _, _ => rfl
  | n + 1, k, hag => by
    have h0 := hag k (le_refl k) (by omega)
    have h1 := hag (k + 1) (by omega) (by omega)
    have hrest := sampleCoords_congr g₁ g₂ zone n (k + 2)
      (fun m hm1 hm2 => hag m (by omega) (by omega))
    simp only [Projet.sampleCoords, h0, h1, hrest]

theorem presenceDraw_shape (g : ℕ → ℚ) (minD maxD : ℤ) (th : ℚ) (k : ℕ)
    (v : ℤ) (kf : ℕ) (h : Projet.presenceDraw g minD maxD th k = .ok (v, kf)) :
    kf = k + 1 ∨ kf = k + 2 := by
  rw [Projet.presenceDraw] at h
  by_cases hth : th < g k
  · rw [if_pos hth] at h
    by_cases hab : minD ≤ maxD
    · rw [if_pos hab] at h
      simp only [Except.ok.injEq, Prod.mk.injEq] at h
      right
      omega
    · rw [if_neg hab] at h
      exact absurd h (by simp)
  · rw [if_neg hth] at h
    simp only [Except.ok.injEq, Prod.mk.injEq] at h
    left
    omega

theorem presenceDraw_congr (g₁ g₂ : ℕ → ℚ) (minD maxD : ℤ) (th : ℚ) (k : ℕ)
    (v : ℤ) (kf : ℕ) (h : Projet.presenceDraw g₁ minD maxD th k = .ok (v, kf))
    (hag : ∀ m, k ≤ m → m < kf → g₁ m = g₂ m) :
    Projet.presenceDraw g₂ minD maxD th k = .ok (v, kf) := by
  have hsh := presenceDraw_shape g₁ minD maxD th k v kf h
  have hk : g₁ k = g₂ k := hag k le_rfl (by omega)
  rw [Projet.presenceDraw] at h ⊢
  rw [← hk]
  by_cases hth : th < g₁ k
  · rw [if_pos hth] at h ⊢
    by_cases hab : minD ≤ maxD
    · rw [if_pos hab] at h ⊢
      simp only [Except.ok.injEq, Prod.mk.injEq] at h ⊢
      have hkf : kf = k + 2 := by omega
      have hk1 : g₁ (k + 1) = g₂ (k + 1) := hag (k + 1) (by omega) (by omega)
      rw [← hk1]
      exact h
    · rw [if_neg hab] at h
      exact absurd h (by simp)
  · rw [if_neg hth] at h ⊢
    exact h

theorem sampleStationDemands_mono (g : ℕ → ℚ) (minD maxD : ℤ) :
    ∀ (n k : ℕ) (l : List (ℤ × ℤ)) (kf : ℕ),
    Projet.sampleStationDemands g minD maxD n k = .ok (l, kf) → k ≤ kf
  | 0, k, l, kf => by
    intro h
    simp [Projet.sampleStationDemands] at h
    omega
  | n + 1, k, l, kf => by
    intro h
    rw [Projet.sampleStationDemands] at h
    rcases h1 : Projet.presenceDraw g minD maxD (1/5) k with e | d1
    · simp only [h1] at h
      exact absurd h (by simp)
    · obtain ⟨de, k1⟩ := d1
      simp only [h1] at h
      rcases h2 : Projet.presenceDraw g minD maxD (3/10) k1 with e | d2
      · simp only [h2] at h
        exact absurd h (by simp)
      · obtain ⟨dg, k2⟩ := d2
        simp only [h2] at h
        rcases hrec : Projet.sampleStationDemands g minD maxD n k2 with e | rk
        · simp only [hrec] at h
          exact absurd h (by simp)
        · obtain ⟨rest, k'⟩ := rk
          simp only [hrec, Except.ok.injEq, Prod.mk.injEq] at h
          have hs1 := presenceDraw_shape g minD maxD (1/5) k de k1 h1
          have hs2 := presenceDraw_shape g minD maxD (3/10) k1 dg k2 h2
          have hs3 := sampleStationDemands_mono g minD maxD n k2 rest k' hrec
          omega

theorem sampleStationDemands_congr (g₁ g₂ : ℕ → ℚ) (minD maxD : ℤ) :
    ∀ (n k : ℕ) (l : List (ℤ × ℤ)) (kf : ℕ),
    Projet.sampleStationDemands g₁ minD maxD n k = .ok (l, kf) →
    (∀ m, k ≤ m → m < kf → g₁ m = g₂ m) →
    Projet.sampleStationDemands g₂ minD maxD n k = .ok (l, kf)
  | 0, k, l, kf => fun h _ => h
  | n + 1, k, l, kf => by
    intro h hag
    rw [Projet.sampleStationDemands] at h ⊢
    rcases h1 : Projet.presenceDraw g₁ minD maxD (1/5) k with e | d1
    · simp only [h1] at h
      exact absurd h (by simp)
    · obtain ⟨de, k1⟩ := d1
      simp only [h1] at h
      rcases h2 : Projet.presenceDraw g₁ minD maxD (3/10) k1 with e | d2
      · simp only [h2] at h
        exact absurd h (by simp)
      · obtain ⟨dg, k2⟩ := d2
        simp only [h2] at h
        rcases hrec : Projet.sampleStationDemands g₁ minD maxD n k2 with e | rk
        · simp only [hrec] at h
          exact absurd h (by simp)
        · obtain ⟨rest, k'⟩ := rk
          simp only [hrec, Except.ok.injEq, Prod.mk.injEq] at h
          have hs1 := presenceDraw_shape g₁ minD maxD (1/5) k de k1 h1
          have hs2 := presenceDraw_shape g₁ minD maxD (3/10) k1 dg k2 h2
          have hs3 := sampleStationDemands_mono g₁ minD maxD n k2 rest k' hrec
          have hkf : k' = kf := h.2
          have hp1 := presenceDraw_congr g₁ g₂ minD maxD (1/5) k de k1 h1
            (fun m hm1 hm2 => hag m hm1 (by omega))
          have hp2 := presenceDraw_congr g₁ g₂ minD maxD (3/10) k1 dg k2 h2
            (fun m hm1 hm2 => hag m (by omega) (by omega))
          have hr := sampleStationDemands_congr g₁ g₂ minD maxD n k2 rest k' hrec
            (fun m hm1 hm2 => hag m (by omega) (by omega))
          simp only [hp1, hp2, hr, Except.ok.injEq, Prod.mk.injEq]
          exact h

theorem sampleStocks_snd (g : ℕ → ℚ) (bE bG : ℚ) : ∀ (n k : ℕ),
    (Projet.sampleStocks g bE bG n k).2 = k + 2 * n
  | 0, k => rfl
  | n + 1, k => by
    simp only [Projet.sampleStocks, sampleStocks_snd g bE bG n (k + 2)]
    omega

theorem sampleStocks_congr (g₁ g₂ : ℕ → ℚ) (bE bG : ℚ) : ∀ (n k : ℕ),
    (∀ m, k ≤ m → m < k + 2 * n → g₁ m = g₂ m) →
    Projet.sampleStocks g₁ bE bG n k = Projet.sampleStocks g₂ bE bG n k
  | 0, _, _ => rfl
  | n + 1, k, hag => by
    have h0 := hag k (le_refl k) (by omega)
    have h1 := hag (k + 1) (by omega) (by omega)
    have hrest := sampleStocks_congr g₁ g₂ bE bG n (k + 2)
      (fun m hm1 hm2 => hag m (by omega) (by omega))
    simp only [Projet.sampleStocks, h0, h1, hrest]

theorem sampleTrucksFrom_snd (g : ℕ → ℚ) (garages : List Projet.Site)
    (d : String) (C : ℤ) : ∀ (n i k : ℕ) (ts : List Projet.Truck) (kf : ℕ),
    Projet.sampleTrucksFrom g garages d C i n k = .ok (ts, kf) → kf = k + 2 * n
  | 0, i, k, ts, kf => by
    intro h
    simp [Projet.sampleTrucksFrom] at h
    omega
  | n + 1, i, k, ts, kf => by
    intro h
    rw [Projet.sampleTrucksFrom] at h
    rcases hgar : garages.get? (choiceIdx garages.length (g k)) with _ | gar
    · simp only [hgar] at h
      exact absurd h (by simp)
    · simp only [hgar] at h
      rcases hrec : Projet.sampleTrucksFrom g garages d C (i + 1) n (k + 2) with e | rk
      · simp only [hrec] at h
        exact absurd h (by simp)
      · obtain ⟨rest, k'⟩ := rk
        simp only [hrec, Except.ok.injEq, Prod.mk.injEq] at h
        have := sampleTrucksFrom_snd g garages d C n (i + 1) (k + 2) rest k' hrec
        omega

theorem sampleTrucksFrom_congr (g₁ g₂ : ℕ → ℚ) (garages : List Projet.Site)
    (d : String) (C : ℤ) : ∀ (n i k : ℕ) (ts : List Projet.Truck) (kf : ℕ),
    Projet.sampleTrucksFrom g₁ garages d C i n k = .ok (ts, kf) →
    (∀ m, k ≤ m → m < kf → g₁ m = g₂ m) →
    Projet.sampleTrucksFrom g₂ garages d C i n k = .ok (ts, kf)
  | 0, i, k, ts, kf => fun h _ => h
  | n + 1, i, k, ts, kf => by
    intro h hag
    rw [Projet.sampleTrucksFrom] at h ⊢
    rcases hgar : garages.get? (choiceIdx garages.length (g₁ k)) with _ | gar
    · simp only [hgar] at h
      exact absurd h (by simp)
    · simp only [hgar] at h
      rcases hrec : Projet.sampleTrucksFrom g₁ garages d C (i + 1) n (k + 2) with e | rk
      · simp only [hrec] at h
        exact absurd h (by simp)
      · obtain ⟨rest, k'⟩ := rk
        simp only [hrec, Except.ok.injEq, Prod.mk.injEq] at h
        have hkf : k' = kf := h.2
        have hsnd := sampleTrucksFrom_snd g₁ garages d C n (i + 1) (k + 2) rest k' hrec
        have hk0 : g₁ k = g₂ k := hag k le_rfl (by omega)
        have hk1 : g₁ (k + 1) = g₂ (k + 1) := hag (k + 1) (by omega) (by omega)
        have hr := sampleTrucksFrom_congr g₁ g₂ garages d C n (i + 1) (k + 2)
          rest k' hrec (fun m hm1 hm2 => hag m (by omega) (by omega))
        rw [← hk0, ← hk1]
        simp only [hgar, hr, Except.ok.injEq, Prod.mk.injEq]
        exact h


/-- C8: the generated instance is a deterministic function of the seed and
configuration: a second run whose draw stream agrees with the first on
every draw the first run consumed (which is what re-seeding with the same
seed guarantees) produces the identical instance — identical coordinates,
demands, stocks and trucks — and the identical distance matrix. -/
theorem C8_determinism (cfg : Projet.Cfg) (g₁ g₂ : ℕ → ℚ)
    (inst : Projet.Instance) (k : ℕ)
    (h₁ : Projet.projGenerate' cfg g₁ = Except.ok (inst, k))
    (hagree : ∀ m, m < k → g₁ m = g₂ m) :
    Projet.projGenerate' cfg g₂ = Except.ok (inst, k) ∧
    Projet.projGenerate cfg g₂ = Projet.projGenerate cfg g₁ ∧
    Projet.instanceMatrix cfg g₂ = Projet.instanceMatrix cfg g₁ := by
  have h₁' := h₁
  simp only [Projet.projGenerate'] at h₁
  split at h₁
  · exact absurd h₁ (by simp)
  · rename_i td hdem
    split at h₁
    · exact absurd h₁ (by simp)
    · rename_i tk htk
      split at h₁
      · exact absurd h₁ (by simp)
      · rename_i hc1
        split at h₁
        · exact absurd h₁ (by simp)
        · rename_i hc2
          split at h₁
          · exact absurd h₁ (by simp)
          · rename_i hc3
            simp only [Except.ok.injEq, Prod.mk.injEq] at h₁
            obtain ⟨hinst, hk⟩ := h₁
            -- counters of the first run
            have e1 : (Projet.sampleCoords g₁ cfg.zone_size cfg.n_garages.toNat 0).2
                = 0 + 2 * cfg.n_garages.toNat :=
              sampleCoords_snd g₁ cfg.zone_size cfg.n_garages.toNat 0
            have e2 : (Projet.sampleCoords g₁ cfg.zone_size cfg.n_depots.toNat
                  (Projet.sampleCoords g₁ cfg.zone_size cfg.n_garages.toNat 0).2).2
                = (Projet.sampleCoords g₁ cfg.zone_size cfg.n_garages.toNat 0).2
                  + 2 * cfg.n_depots.toNat :=
              sampleCoords_snd g₁ cfg.zone_size cfg.n_depots.toNat _
            have e3 : (Projet.sampleCoords g₁ cfg.zone_size cfg.n_stations.toNat
                  (Projet.sampleCoords g₁ cfg.zone_size cfg.n_depots.toNat
                    (Projet.sampleCoords g₁ cfg.zone_size cfg.n_garages.toNat 0).2).2).2
                = (Projet.sampleCoords g₁ cfg.zone_size cfg.n_depots.toNat
                    (Projet.sampleCoords g₁ cfg.zone_size cfg.n_garages.toNat 0).2).2
                  + 2 * cfg.n_stations.toNat :=
              sampleCoords_snd g₁ cfg.zone_size cfg.n_stations.toNat _
            have e4 := sampleStationDemands_mono g₁ cfg.min_d cfg.max_d
              cfg.n_stations.toNat _ td.1 td.2 hdem
            have e5 : (Projet.sampleStocks g₁
                  (((td.1.map Prod.fst).sum : ℚ) * cfg.stock_multiplier / (cfg.n_depots : ℚ))
                  (((td.1.map Prod.snd).sum : ℚ) * cfg.stock_multiplier / (cfg.n_depots : ℚ))
                  cfg.n_depots.toNat td.2).2 = td.2 + 2 * cfg.n_depots.toNat :=
              sampleStocks_snd g₁ _ _ cfg.n_depots.toNat td.2
            have e6 := sampleTrucksFrom_snd g₁ _ cfg.difficulty cfg.truck_capacity
              cfg.n_trucks.toNat 0 _ tk.1 tk.2 htk
            -- stage-by-stage agreement
            have hcg1 : Projet.sampleCoords g₁ cfg.zone_size cfg.n_garages.toNat 0
                = Projet.sampleCoords g₂ cfg.zone_size cfg.n_garages.toNat 0 :=
              sampleCoords_congr g₁ g₂ cfg.zone_size cfg.n_garages.toNat 0
                (fun m hm1 hm2 => hagree m (by omega))
            have hcg2 : Projet.sampleCoords g₁ cfg.zone_size cfg.n_depots.toNat
                  (Projet.sampleCoords g₁ cfg.zone_size cfg.n_garages.toNat 0).2
                = Projet.sampleCoords g₂ cfg.zone_size cfg.n_depots.toNat
                  (Projet.sampleCoords g₁ cfg.zone_size cfg.n_garages.toNat 0).2 :=
              sampleCoords_congr g₁ g₂ cfg.zone_size cfg.n_depots.toNat _
                (fun m hm1 hm2 => hagree m (by omega))
            have hcg3 : Projet.sampleCoords g₁ cfg.zone_size cfg.n_stations.toNat
                  (Projet.sampleCoords g₁ cfg.zone_size cfg.n_depots.toNat
                    (Projet.sampleCoords g₁ cfg.zone_size cfg.n_garages.toNat 0).2).2
                = Projet.sampleCoords g₂ cfg.zone_size cfg.n_stations.toNat
                  (Projet.sampleCoords g₁ cfg.zone_size cfg.n_depots.toNat
                    (Projet.sampleCoords g₁ cfg.zone_size cfg.n_garages.toNat 0).2).2 :=
              sampleCoords_congr g₁ g₂ cfg.zone_size cfg.n_stations.toNat _
                (fun m hm1 hm2 => hagree m (by omega))
            have hdem2 := sampleStationDemands_congr g₁ g₂ cfg.min_d cfg.max_d
              cfg.n_stations.toNat _ td.1 td.2 hdem
              (fun m hm1 hm2 => hagree m (by omega))
            have hstk : Projet.sampleStocks g₁
                  (((td.1.map Prod.fst).sum : ℚ) * cfg.stock_multiplier / (cfg.n_depots : ℚ))
                  (((td.1.map Prod.snd).sum : ℚ) * cfg.stock_multiplier / (cfg.n_depots : ℚ))
                  cfg.n_depots.toNat td.2
                = Projet.sampleStocks g₂
                  (((td.1.map Prod.fst).sum : ℚ) * cfg.stock_multiplier / (cfg.n_depots : ℚ))
                  (((td.1.map Prod.snd).sum : ℚ) * cfg.stock_multiplier / (cfg.n_depots : ℚ))
                  cfg.n_depots.toNat td.2 :=
              sampleStocks_congr g₁ g₂ _ _ cfg.n_depots.toNat td.2
                (fun m hm1 hm2 => hagree m (by omega))
            have htk2 := sampleTrucksFrom_congr g₁ g₂ _ cfg.difficulty
              cfg.truck_capacity cfg.n_trucks.toNat 0 _ tk.1 tk.2 htk
              (fun m hm1 hm2 => hagree m (by omega))
            have hgen2 : Projet.projGenerate' cfg g₂ = Except.ok (inst, k) := by
              simp only [Projet.projGenerate']
              rw [← hcg1, ← hcg2, ← hcg3]
              simp only [hdem2]
              rw [← hstk]
              simp only [htk2]
              rw [if_neg hc1, if_neg hc2, if_neg hc3, hinst, hk]
            refine ⟨hgen2, ?_, ?_⟩
            · rw [Projet.projGenerate, Projet.projGenerate, hgen2, h₁']
            · have hall : Projet.allCoords cfg g₂ = Projet.allCoords cfg g₁ := by
                simp only [Projet.allCoords]
                rw [← hcg1, ← hcg2, ← hcg3]
              rw [Projet.instanceMatrix, Projet.instanceMatrix, hall]


/-- C8 witness: the theorem applied to a concrete configuration, the all-zero
draw stream (which consumes exactly 10 draws) and a second stream agreeing
with it on those 10 draws but differing afterwards. -/
theorem C8_determinism_witness :
    Projet.projGenerate'
      { n_garages := 1, n_depots := 1, n_stations := 1, n_trucks := 0,
        truck_capacity := 100, zone_size := 1, min_d := 0, max_d := 0,
        stock_multiplier := 2, difficulty := "easy" }
      (fun n => if n < 10 then 0 else 1/2)
      = Except.ok
        (({ n_trucks := 0,
            garages := [{ id := "G1", name := "Garage_1", x := 0, y := 0, index := 0 }],
            depots := [{ id := "D1", name := "Depot_1", x := 0, y := 0, index := 1,
                         stock_essence := 0, stock_gasoil := 0 }],
            stations := [{ id := "S1", name := "Station_1", x := 0, y := 0, index := 2,
                           demand_essence := 0, demand_gasoil := 0 }],
            trucks := [],
            total_demand_essence := 0, total_demand_gasoil := 0,
            total_stock_essence := 0, total_stock_gasoil := 0 } : Projet.Instance), 10) :=
  (C8_determinism
    { n_garages := 1, n_depots := 1, n_stations := 1, n_trucks := 0,
      truck_capacity := 100, zone_size := 1, min_d := 0, max_d := 0,
      stock_multiplier := 2, difficulty := "easy" }
    (fun _ => 0)
    (fun n => if n < 10 then 0 else 1/2)
    { n_trucks := 0,
      garages := [{ id := "G1", name := "Garage_1", x := 0, y := 0, index := 0 }],
      depots := [{ id := "D1", name := "Depot_1", x := 0, y := 0, index := 1,
                   stock_essence := 0, stock_gasoil := 0 }],
      stations := [{ id := "S1", name := "Station_1", x := 0, y := 0, index := 2,
                     demand_essence := 0, demand_gasoil := 0 }],
      trucks := [],
      total_demand_essence := 0, total_demand_gasoil := 0,
      total_stock_essence := 0, total_stock_gasoil := 0 }
    10
    (by
      norm_num [Projet.projGenerate', Projet.sampleCoords,
        Projet.sampleStationDemands, Projet.presenceDraw, Projet.sampleStocks,
        Projet.sampleTrucksFrom, Projet.mkGarages, Projet.mkStations,
        Projet.mkDepots, round2, uniformDraw, randintVal, choiceIdx, int_,
        round_eq, List.range_succ, List.range_zero]
      decide)
    (fun m hm => by simp [hm])).1
